import Mathlib

/-!
Verification of the gqlhub-core GraphQL lexer and parser.

This file is a shallow embedding of the Go sources:
  * `token/token.go`       — token kinds and the token record;
  * `lexer/*.go`           — cursor, `readChar`, `NextToken` and all the
                             token readers (numbers, strings, block strings,
                             Unicode escapes) plus `LexError`;
  * `parser/parser.go`     — the recursive-descent parser over a two-token
                             lookahead window, and the AST of `ast/ast.go`.

Modelling conventions:
  * A Go `rune` is an `Int` code point; the end-of-input sentinel is `-1`,
    exactly as in the source (`const eof = -1`).  The input is a list of
    code points, so the byte offsets of the Go source become code-point
    offsets; none of the verified properties depends on byte widths.
  * Go strings built by the lexer (token literals, names) are lists of code
    points (`List Int`).
  * Loops are expressed by fuel recursion; every wrapper instantiates the
    fuel with a bound that dominates the number of iterations the Go loop
    can make (each iteration consumes input, so the input length suffices).
    Exhausted fuel yields an error value that occurs on no evaluated input.
  * Go `nil` slices are `[]`; pointer fields that can remain `nil` on a
    success path of the parser are `Option`; fields assigned on every
    success path before the surrounding function returns are plain.
  * Go's lazy token pull is modelled by lexing the whole input first
    (`lexAll`) and running the parser over the token list; a lexer failure
    surfaces as the `Err.lexErr` case of the combined entry point.
-/

namespace GqlHub

/-! ## token/token.go -/

/-- Token kinds, from the `token.Type` constants. -/
inductive TokenType where
  | EOF
  | BANG | DOLLAR | AMP | LPAREN | RPAREN | SPREAD | COLON | EQUALS | AT
  | LBRACK | RBRACK | LBRACE | PIPE | RBRACE
  | NAME | INT | FLOAT | STRING | BLOCK_STRING | COMMENT
  deriving DecidableEq, Repr

/-- The `types` array of `token/token.go`, used by `Type.String()`. -/
def TokenType.str : TokenType → String
  | .EOF => "EOF"
  | .BANG => "BANG"
  | .DOLLAR => "DOLLAR"
  | .AMP => "AMP"
  | .LPAREN => "LPAREN"
  | .RPAREN => "RPAREN"
  | .SPREAD => "SPREAD"
  | .COLON => "COLON"
  | .EQUALS => "EQUALS"
  | .AT => "AT"
  | .LBRACK => "LBRACK"
  | .RBRACK => "RBRACK"
  | .LBRACE => "LBRACE"
  | .PIPE => "PIPE"
  | .RBRACE => "RBRACE"
  | .NAME => "NAME"
  | .INT => "INT"
  | .FLOAT => "FLOAT"
  | .STRING => "STRING"
  | .BLOCK_STRING => "BLOCK_STRING"
  | .COMMENT => "COMMENT"

/-- Go `token.Token`: kind, literal and the half-open offset interval.
The zero value (all defaults) matches Go's zero `token.Token`. -/
structure Token where
  type : TokenType := .EOF
  literal : List Int := []
  start : Nat := 0
  endPos : Nat := 0
  deriving DecidableEq, Repr

/-- Code points of a Lean string, as the `rune` stream of a Go string. -/
def codes (s : String) : List Int :=
  s.data.map (fun c => (c.toNat : Int))

/-! ## lexer helpers (`lexer/utils.go`) -/

def isLetter (ch : Int) : Bool :=
  decide ((97 ≤ ch ∧ ch ≤ 122) ∨ (65 ≤ ch ∧ ch ≤ 90))

def isDigit (ch : Int) : Bool :=
  decide (48 ≤ ch ∧ ch ≤ 57)

/-- Go `'\n'` (LF) or `'\r'` (CR). -/
def isLineTerminator (ch : Int) : Bool :=
  decide (ch = 10 ∨ ch = 13)

/-- Letter or `'_'` (95). -/
def isNameStart (ch : Int) : Bool :=
  isLetter ch || decide (ch = 95)

def isNameContinue (ch : Int) : Bool :=
  isLetter ch || isDigit ch || decide (ch = 95)

/-- Go `'e'` (101) or `'E'` (69). -/
def isExponentIndicator (ch : Int) : Bool :=
  decide (ch = 101 ∨ ch = 69)

/-- Go `'+'` (43) or `'-'` (45). -/
def isSign (ch : Int) : Bool :=
  decide (ch = 43 ∨ ch = 45)

def isUnicodeScalarValue (ch : Int) : Bool :=
  decide ((0 ≤ ch ∧ ch ≤ 0xD7FF) ∨ (0xE000 ≤ ch ∧ ch ≤ 0x10FFFF))

def isLeadingSurrogate (ch : Int) : Bool :=
  decide (0xD800 ≤ ch ∧ ch ≤ 0xDBFF)

def isTrailingSurrogate (ch : Int) : Bool :=
  decide (0xDC00 ≤ ch ∧ ch ≤ 0xDFFF)

/-- Go `combineSurrogates` of `lexer/utils.go`. -/
def combineSurrogates (leading trailing : Int) : Int :=
  (leading - 0xD800) * 0x400 + (trailing - 0xDC00) + 0x10000

/-- Go `' '` (32) or `'\t'` (9). -/
def isWhiteSpace (ch : Int) : Bool :=
  decide (ch = 32 ∨ ch = 9)

def leadingWhitespaceCount (s : List Int) : Nat :=
  (s.takeWhile isWhiteSpace).length

def isBlank (s : List Int) : Bool :=
  s.all isWhiteSpace

def hexDigitToInt (ch : Int) : Int :=
  if 48 ≤ ch ∧ ch ≤ 57 then ch - 48
  else if 97 ≤ ch ∧ ch ≤ 102 then (ch - 97) + 10
  else if 65 ≤ ch ∧ ch ≤ 70 then (ch - 65) + 10
  else -1

/-- The `escapeChars` map: `\" \\ \/ \b \f \n \r \t`. -/
def escapeChars (ch : Int) : Option Int :=
  if ch = 34 then some 34        -- quote to quote
  else if ch = 92 then some 92   -- backslash to backslash
  else if ch = 47 then some 47   -- slash to slash
  else if ch = 98 then some 8    -- b to backspace
  else if ch = 102 then some 12  -- f to form feed
  else if ch = 110 then some 10  -- n to LF
  else if ch = 114 then some 13  -- r to CR
  else if ch = 116 then some 9   -- t to tab
  else none

/-- One uppercase hex digit. -/
def hexDigitUpper (n : Nat) : Char :=
  if n < 10 then Char.ofNat (48 + n) else Char.ofNat (55 + n)

def hexDigitsAux : Nat → Nat → List Char
  | 0, _ => []
  | fuel + 1, n =>
    if n = 0 then [] else hexDigitsAux fuel (n / 16) ++ [hexDigitUpper (n % 16)]

/-- Uppercase hex rendering of `n`, zero-padded to at least four digits,
as Go's `%04X`. -/
def hex4 (n : Nat) : String :=
  let ds := hexDigitsAux 16 n
  let ds := if ds.length < 4 then List.replicate (4 - ds.length) (Char.ofNat 48) ++ ds else ds
  String.mk ds

/-- A single code point as a one-character string (Go `%c`); the sentinel
and invalid code points render as an empty string, which no verified
property observes. -/
def charStr (ch : Int) : String :=
  if 0 ≤ ch ∧ ch.toNat < 0xD800 ∨ 0xE000 ≤ ch ∧ ch.toNat < 0x110000 then
    String.mk [Char.ofNat ch.toNat]
  else ""

/-- An apostrophe, kept out of string literals. -/
def sq : String := String.mk [Char.ofNat 39]

/-- Go `printChar` of `lexer/utils.go`. -/
def printChar (ch : Int) : String :=
  if ch = -1 then "<EOF>"
  else if 0x20 ≤ ch ∧ ch ≤ 0x7E then
    if ch = 34 then "\\" ++ String.mk [Char.ofNat 34]
    else charStr ch
  else "U+" ++ hex4 ch.toNat

/-! ## lexer state (`lexer/lexer.go`) -/

/-- The `cursor` struct; the Go zero value is all zeroes. -/
structure Cursor where
  offset : Nat := 0
  rdOffset : Nat := 0
  line : Nat := 0
  column : Nat := 0
  deriving DecidableEq, Repr

/-- Go `LexError`: 1-based location plus the rendered message. -/
structure LexError where
  line : Nat := 0
  column : Nat := 0
  msg : String := ""
  deriving DecidableEq, Repr

/-- The `Lexer` struct.  `ch` starts as the Go zero rune `0`. -/
structure Lexer where
  input : List Int
  ch : Int := 0
  cur : Cursor := {}
  savedCursor : Cursor := {}
  deriving DecidableEq, Repr

/-- Indexing the input; out-of-range reads never happen on the paths that
guard with `rdOffset < length`, mirroring the Go bounds checks. -/
def inputAt (input : List Int) (i : Nat) : Int :=
  input.getD i 0

/-- Go `readChar`: advance one code point, folding CR, LF and CRLF into single
line breaks (an LF directly followed by CR counts twice, as in the source). -/
def Lexer.readChar (l : Lexer) : Lexer :=
  let c := l.cur
  let c :=
    if l.ch = 13 then
      let c := { c with line := c.line + 1, column := 0 }
      if c.rdOffset < l.input.length ∧ inputAt l.input c.rdOffset = 10 then
        { c with rdOffset := c.rdOffset + 1 }
      else c
    else if l.ch = 10 then { c with line := c.line + 1, column := 0 }
    else c
  if c.rdOffset < l.input.length then
    { l with ch := inputAt l.input c.rdOffset,
             cur := { c with offset := c.rdOffset, rdOffset := c.rdOffset + 1,
                             column := c.column + 1 } }
  else
    { l with ch := -1,
             cur := { c with offset := l.input.length, column := c.column + 1 } }

/-- Go `New`: line starts at 1, then one `readChar`. -/
def mkLexer (input : List Int) : Lexer :=
  Lexer.readChar { input := input, cur := { line := 1 } }

/-- Go `peekChar`. -/
def Lexer.peekChar (l : Lexer) : Int :=
  if l.cur.rdOffset ≥ l.input.length then 0 else inputAt l.input l.cur.rdOffset

/-- Go `peekCharAt`; in the code-point model the rune walk is a plain index
shift with the same out-of-range result. -/
def Lexer.peekCharAt (l : Lexer) (offset : Nat) : Int :=
  if l.cur.rdOffset + offset ≥ l.input.length then 0
  else inputAt l.input (l.cur.rdOffset + offset)

/-- Go `saveCurrentCursor`. -/
def Lexer.saveCurrentCursor (l : Lexer) : Lexer :=
  { l with savedCursor := l.cur }

/-- Go `getCapturedSequence`: the input from the saved cursor to the read
offset. -/
def Lexer.getCapturedSequence (l : Lexer) : List Int :=
  (l.input.drop l.savedCursor.offset).take (l.cur.rdOffset - l.savedCursor.offset)

/-- Go `newLexError`: the saved cursor wins when it was set (compared against
the zero cursor, as in the source). -/
def Lexer.newLexError (l : Lexer) (msg : String) : LexError :=
  let c := if l.savedCursor = ({} : Cursor) then l.cur else l.savedCursor
  { line := c.line, column := c.column, msg := msg }

/-- Error used when fuel recursion runs out; unreachable for the fuel
bounds the wrappers pass. -/
def fuelLexError : LexError := { line := 0, column := 0, msg := "out of fuel" }

/-- Go slice `input[a:b]`. -/
def slice (input : List Int) (a b : Nat) : List Int :=
  (input.drop a).take (b - a)

/-- Rendering a captured code-point sequence inside an error message. -/
def strOfCodes (cs : List Int) : String :=
  String.mk (cs.map (fun c => Char.ofNat c.toNat))

/-! ## token readers (`lexer/lexer.go`, `lexer/unicode.go`, `lexer/blockstring.go`) -/

def readNameLoop : Nat → Lexer → Lexer
  | 0, l => l
  | fuel + 1, l => if isNameContinue l.ch then readNameLoop fuel l.readChar else l

/-- Go `readName`. -/
def Lexer.readName (l : Lexer) : List Int × Lexer :=
  let start := l.cur.offset
  let l2 := readNameLoop (l.input.length + 1) l
  (slice l.input start l2.cur.offset, l2)

def readDigitsLoop : Nat → Lexer → Lexer
  | 0, l => l
  | fuel + 1, l => if isDigit l.ch then readDigitsLoop fuel l.readChar else l

def numErrExpected (s : String) : String :=
  "invalid number, expected digit but got " ++ sq ++ s ++ sq

/-- The `IntegerPart` step of `readNumber`. -/
def numIntegerPart (l : Lexer) : Except LexError Lexer :=
  if l.ch = 48 then
    let l := l.readChar
    if isDigit l.ch then
      .error (l.newLexError ("invalid number, unexpected digit after 0: " ++ sq ++ printChar l.ch ++ sq))
    else .ok l
  else if isDigit l.ch = false then
    .error (l.newLexError (numErrExpected (printChar l.ch)))
  else .ok (readDigitsLoop (l.input.length + 1) l)

/-- The `FractionalPart` step of `readNumber`; the flag records that the
token became a `FLOAT`. -/
def numFractionPart (l : Lexer) : Except LexError (Bool × Lexer) :=
  if l.ch = 46 then
    let l := l.readChar
    if isDigit l.ch = false then
      .error (l.newLexError (numErrExpected (printChar l.ch)))
    else .ok (true, readDigitsLoop (l.input.length + 1) l)
  else .ok (false, l)

/-- The `ExponentPart` step of `readNumber`. -/
def numExponentPart (l : Lexer) : Except LexError (Bool × Lexer) :=
  if isExponentIndicator l.ch then
    let l := l.readChar
    let l := if isSign l.ch then l.readChar else l
    if isDigit l.ch = false then
      .error (l.newLexError (numErrExpected (printChar l.ch)))
    else .ok (true, readDigitsLoop (l.input.length + 1) l)
  else .ok (false, l)

/-- Go `readNumber`; the final check is the note-dea61 rule (no `.` and no
name-start directly after a numeric literal), whose message uses the raw
character as in the source. -/
def Lexer.readNumber (l : Lexer) : Except LexError (TokenType × List Int × Lexer) :=
  let start := l.cur.offset
  let l := if l.ch = 45 then l.readChar else l
  match numIntegerPart l with
  | .error e => .error e
  | .ok l =>
    match numFractionPart l with
    | .error e => .error e
    | .ok (isFloat1, l) =>
      match numExponentPart l with
      | .error e => .error e
      | .ok (isFloat2, l) =>
        if l.ch = 46 ∨ isNameStart l.ch then
          .error (l.newLexError (numErrExpected (charStr l.ch)))
        else
          let tokType := if isFloat1 || isFloat2 then TokenType.FLOAT else TokenType.INT
          .ok (tokType, slice l.input start l.cur.offset, l)

def invalidHexMsg (l : Lexer) : String :=
  "invalid hex digit " ++ sq ++ charStr l.ch ++ sq ++
    " in Unicode escape sequence " ++ sq ++ strOfCodes l.getCapturedSequence ++ sq

/-- The body of the four-round loop of `readUnicodeFixedWidth`; `readChar`
runs between hex digits but not after the fourth, as in the source. -/
def readUnicodeFixedWidthGo : Nat → Int → Lexer → Except LexError (Int × Lexer)
  | 0, value, l => .ok (value, l)
  | n + 1, value, l =>
    let digit := hexDigitToInt l.ch
    if digit < 0 then .error (l.newLexError (invalidHexMsg l))
    else
      let value := value * 16 + digit
      match n with
      | 0 => .ok (value, l)
      | m + 1 => readUnicodeFixedWidthGo (m + 1) value l.readChar

/-- Go `readUnicodeFixedWidth` (`value<<4 | digit` on the nonnegative
accumulator equals `value*16 + digit`). -/
def Lexer.readUnicodeFixedWidth (l : Lexer) : Except LexError (Int × Lexer) :=
  readUnicodeFixedWidthGo 4 0 l

/-- Go `readUnicodeVariableWidth`; on the closing brace the loop breaks and
the emptiness/scalar checks run, with the brace left as the current
character. -/
def readUnicodeVariableWidthLoop : Nat → Int → Nat → Lexer → Except LexError (Int × Lexer)
  | 0, _, _, _ => .error fuelLexError
  | fuel + 1, value, count, l =>
    let l := l.readChar
    if l.ch = 125 then
      if count = 0 then .error (l.newLexError ("unicode escape sequence cannot be empty"))
      else if isUnicodeScalarValue value = false then
        .error (l.newLexError ("unicode escape sequence " ++ sq ++ strOfCodes l.getCapturedSequence ++ sq ++ " is out of range or invalid"))
      else .ok (value, l)
    else if l.ch = -1 then
      .error (l.newLexError ("unterminated Unicode escape sequence"))
    else
      let digit := hexDigitToInt l.ch
      if digit < 0 then .error (l.newLexError (invalidHexMsg l))
      else
        let value := value * 16 + digit
        let count := count + 1
        if count > 8 then
          .error (l.newLexError ("unicode escape sequence " ++ sq ++ strOfCodes l.getCapturedSequence ++ sq ++ " is too long"))
        else readUnicodeVariableWidthLoop fuel value count l

def Lexer.readUnicodeVariableWidth (l : Lexer) : Except LexError (Int × Lexer) :=
  readUnicodeVariableWidthLoop (l.input.length + 2) 0 0 l

/-- Go `readUnicodeFixedWidthOrSurrogate`, including the surrogate-pair
recombination. -/
def Lexer.readUnicodeFixedWidthOrSurrogate (l : Lexer) : Except LexError (Int × Lexer) :=
  match l.readUnicodeFixedWidth with
  | .error e => .error e
  | .ok (value, l) =>
    if isUnicodeScalarValue value then .ok (value, l)
    else if isLeadingSurrogate value then
      let l := l.readChar
      if l.ch ≠ 92 then
        .error (l.newLexError ("expected " ++ sq ++ "\\u" ++ sq ++ " for trailing surrogate in Unicode escape sequence"))
      else
        let l := l.readChar
        if l.ch ≠ 117 then
          .error (l.newLexError ("expected " ++ sq ++ "u" ++ sq ++ " after " ++ sq ++ "\\" ++ sq ++ " in Unicode escape sequence"))
        else
          let l := l.readChar
          match l.readUnicodeFixedWidth with
          | .error e => .error e
          | .ok (trailingValue, l) =>
            if isTrailingSurrogate trailingValue then
              .ok (combineSurrogates value trailingValue, l)
            else
              .error (l.newLexError ("invalid trailing surrogate in Unicode escape sequence " ++ sq ++ strOfCodes l.getCapturedSequence ++ sq))
    else
      .error (l.newLexError ("invalid Unicode escape sequence " ++ sq ++ strOfCodes l.getCapturedSequence ++ sq))

/-- Go `readEscapedUnicode`: dispatch on `{` after the `u`. -/
def Lexer.readEscapedUnicode (l : Lexer) : Except LexError (Int × Lexer) :=
  let l := l.readChar
  if l.ch = 123 then l.readUnicodeVariableWidth
  else l.readUnicodeFixedWidthOrSurrogate

/-- The body of the `readString` loop; the cursor is saved at each
backslash for error locations and captured sequences. -/
def readStringLoop : Nat → Lexer → List Int → Except LexError (List Int × Lexer)
  | 0, _, _ => .error fuelLexError
  | fuel + 1, l, acc =>
    if l.ch = 34 then .ok (acc, l.readChar)
    else if l.ch = -1 ∨ isLineTerminator l.ch then
      .error (l.newLexError ("unterminated string"))
    else if l.ch < 32 then
      .error (l.newLexError ("invalid character in string literal: " ++ sq ++ "\\u" ++ hex4 l.ch.toNat ++ sq))
    else if l.ch = 92 then
      let l := l.saveCurrentCursor
      let l := l.readChar
      if l.ch = 117 then
        match l.readEscapedUnicode with
        | .error e => .error e
        | .ok (char, l) => readStringLoop fuel l.readChar (acc ++ [char])
      else
        match escapeChars l.ch with
        | some esc => readStringLoop fuel l.readChar (acc ++ [esc])
        | none =>
          .error (l.newLexError ("unknown escape sequence " ++ sq ++ "\\" ++ charStr l.ch ++ sq))
    else readStringLoop fuel l.readChar (acc ++ [l.ch])

/-- Go `readString`: consume the opening quote, then the loop. -/
def Lexer.readString (l : Lexer) : Except LexError (List Int × Lexer) :=
  let l := l.readChar
  readStringLoop (l.input.length + 2) l []

def readCommentLoop : Nat → Lexer → Lexer
  | 0, l => l
  | fuel + 1, l =>
    if isLineTerminator l.ch = false ∧ l.ch ≠ -1 then readCommentLoop fuel l.readChar else l

/-- Go `readComment`: text after `#` up to the line terminator or EOF. -/
def Lexer.readComment (l : Lexer) : List Int × Lexer :=
  let l := l.readChar
  let start := l.cur.offset
  let l2 := readCommentLoop (l.input.length + 1) l
  (slice l.input start l2.cur.offset, l2)

def skipInsignificantLoop : Nat → Lexer → Lexer
  | 0, l => l
  | fuel + 1, l =>
    if isWhiteSpace l.ch || isLineTerminator l.ch || decide (l.ch = 44) then
      skipInsignificantLoop fuel l.readChar
    else l

/-- Go `skipInsignificantChars`: spaces, tabs, line terminators and commas. -/
def Lexer.skipInsignificantChars (l : Lexer) : Lexer :=
  skipInsignificantLoop (l.input.length + 1) l

/-! ## block strings (`lexer/blockstring.go`) -/

/-- Go `splitLinesByLineTerminator`: LF, CR and CRLF are single delimiters;
a trailing line is kept only when non-empty. -/
def splitLinesAux : List Int → List Int → List (List Int)
  | [], curLine => if curLine.isEmpty then [] else [curLine.reverse]
  | 13 :: 10 :: rest, curLine => curLine.reverse :: splitLinesAux rest []
  | c :: rest, curLine =>
    if c = 10 ∨ c = 13 then curLine.reverse :: splitLinesAux rest []
    else splitLinesAux rest (c :: curLine)

def splitLinesByLineTerminator (s : List Int) : List (List Int) :=
  splitLinesAux s []

/-- The common-indent fold of `processBlockStringValue` (over all lines
except the first; `-1` is the Go sentinel for "undefined"). -/
def commonIndentFold : List (List Int) → Int → Int
  | [], commonIndent => commonIndent
  | line :: rest, commonIndent =>
    let length := line.length
    let indent := leadingWhitespaceCount line
    let commonIndent :=
      if indent < length then
        if commonIndent = -1 ∨ (indent : Int) < commonIndent then (indent : Int)
        else commonIndent
      else commonIndent
    commonIndentFold rest commonIndent

def computeCommonIndent (lines : List (List Int)) : Int :=
  commonIndentFold lines.tail (-1)

/-- The stripping step: every line but the first loses the common indent,
provided it is long enough. -/
def stripCommonIndent (commonIndent : Int) (lines : List (List Int)) : List (List Int) :=
  if commonIndent > 0 then
    match lines with
    | [] => []
    | first :: rest =>
      first :: rest.map (fun line =>
        if line.length ≥ commonIndent.toNat then line.drop commonIndent.toNat else line)
  else lines

def removeLeadingAndTrailingBlankLines (lines : List (List Int)) : List (List Int) :=
  ((lines.dropWhile isBlank).reverse.dropWhile isBlank).reverse

/-- Go `processBlockStringValue` (its Go error return is vestigial: every path
returns `nil`). -/
def processBlockStringValue (rawValue : List Int) : List Int :=
  let lines := splitLinesByLineTerminator rawValue
  let commonIndent := computeCommonIndent lines
  let lines := stripCommonIndent commonIndent lines
  let lines := removeLeadingAndTrailingBlankLines lines
  if lines = [] then []
  else List.intercalate [10] lines

/-- The `readBlockString` body loop: `\"""` emits three quotes, the closing
`"""` breaks, EOF errors. -/
def readBlockStringLoop : Nat → Lexer → List Int → Except LexError (List Int × Lexer)
  | 0, _, _ => .error fuelLexError
  | fuel + 1, l, rawValue =>
    if l.ch = -1 then .error (l.newLexError ("unterminated block string"))
    else if l.ch = 34 ∧ l.peekChar = 34 ∧ l.peekCharAt 1 = 34 then
      .ok (rawValue, l.readChar.readChar.readChar)
    else if l.ch = 92 ∧ l.peekChar = 34 ∧ l.peekCharAt 1 = 34 ∧ l.peekCharAt 2 = 34 then
      readBlockStringLoop fuel l.readChar.readChar.readChar.readChar (rawValue ++ [34, 34, 34])
    else readBlockStringLoop fuel l.readChar (rawValue ++ [l.ch])

/-- Go `readBlockString`: consume the three quotes, read the raw body, then
normalize. -/
def Lexer.readBlockString (l : Lexer) : Except LexError (List Int × Lexer) :=
  let l := l.readChar.readChar.readChar
  match readBlockStringLoop (l.input.length + 2) l [] with
  | .error e => .error e
  | .ok (raw, l) => .ok (processBlockStringValue raw, l)

/-! ## `NextToken` -/

/-- A single-character punctuator token. -/
def punctTok (t : TokenType) (start : Nat) (l : Lexer) : Except LexError (Token × Lexer) :=
  let l := l.readChar
  .ok ({ type := t, literal := [], start := start, endPos := l.cur.offset }, l)

/-- Go `NextToken`: skip insignificant characters, reset the saved cursor,
then dispatch on the current code point exactly as the Go switch does. -/
def Lexer.nextToken (l : Lexer) : Except LexError (Token × Lexer) :=
  let l := l.skipInsignificantChars
  let l := { l with savedCursor := {} }
  let start := l.cur.offset
  if isNameStart l.ch then
    let (lit, l) := l.readName
    .ok ({ type := .NAME, literal := lit, start := start, endPos := l.cur.offset }, l)
  else if isDigit l.ch || decide (l.ch = 45) then
    match l.readNumber with
    | .error e => .error e
    | .ok (tt, lit, l) =>
      .ok ({ type := tt, literal := lit, start := start, endPos := l.cur.offset }, l)
  else if l.ch = 33 then punctTok .BANG start l
  else if l.ch = 36 then punctTok .DOLLAR start l
  else if l.ch = 38 then punctTok .AMP start l
  else if l.ch = 40 then punctTok .LPAREN start l
  else if l.ch = 41 then punctTok .RPAREN start l
  else if l.ch = 46 then
    let ch := l.peekChar
    if ch = 46 ∧ l.peekCharAt 1 = 46 then
      let l := l.readChar.readChar.readChar
      .ok ({ type := .SPREAD, literal := [], start := start, endPos := l.cur.offset }, l)
    else if isDigit ch then
      .error (l.newLexError ("invalid number, expected digit before " ++ sq ++ "." ++ sq))
    else .error (l.newLexError ("unexpected " ++ sq ++ "." ++ sq))
  else if l.ch = 58 then punctTok .COLON start l
  else if l.ch = 61 then punctTok .EQUALS start l
  else if l.ch = 64 then punctTok .AT start l
  else if l.ch = 91 then punctTok .LBRACK start l
  else if l.ch = 93 then punctTok .RBRACK start l
  else if l.ch = 123 then punctTok .LBRACE start l
  else if l.ch = 124 then punctTok .PIPE start l
  else if l.ch = 125 then punctTok .RBRACE start l
  else if l.ch = 34 then
    if l.peekChar = 34 ∧ l.peekCharAt 1 = 34 then
      match l.readBlockString with
      | .error e => .error e
      | .ok (lit, l) =>
        .ok ({ type := .BLOCK_STRING, literal := lit, start := start, endPos := l.cur.offset }, l)
    else
      match l.readString with
      | .error e => .error e
      | .ok (lit, l) =>
        .ok ({ type := .STRING, literal := lit, start := start, endPos := l.cur.offset }, l)
  else if l.ch = 35 then
    let (lit, l) := l.readComment
    .ok ({ type := .COMMENT, literal := lit, start := start, endPos := l.cur.offset }, l)
  else if l.ch = -1 then
    .ok ({ type := .EOF, literal := [], start := start, endPos := l.cur.offset }, l)
  else
    .error (l.newLexError ("unexpected character " ++ sq ++ printChar l.ch ++ sq))

/-- Lex the whole input, keeping the final `EOF` token. -/
def lexAllLoop : Nat → Lexer → List Token → Except LexError (List Token)
  | 0, _, _ => .error fuelLexError
  | fuel + 1, l, acc =>
    match l.nextToken with
    | .error e => .error e
    | .ok (tok, l) =>
      if tok.type = .EOF then .ok (acc ++ [tok])
      else lexAllLoop fuel l (acc ++ [tok])

def lexAll (input : List Int) : Except LexError (List Token) :=
  lexAllLoop (input.length + 2) (mkLexer input) []

/-! ## AST (`ast/ast.go`)

Go pointer fields that a successful parse can leave `nil` are `Option`;
pointer fields assigned on every success path are plain.  Go `nil` slices
are `[]` (every slice in the parser is built by `append` alone, so a
non-`nil` empty slice never arises and `= []` is exactly Go's `== nil`).
`ast.OperationType` is a Go string type and `parseOperationType` performs
no validation, so it stays a code-point string here. -/

abbrev OperationType := List Int

/-- Go `ast.Name`. -/
structure Name where
  position : Nat
  value : List Int
  deriving DecidableEq, Repr

/-- Go `ast.NamedType`. -/
structure NamedType where
  position : Nat
  name : Name
  deriving DecidableEq, Repr

/-- Go `ast.Type`: `NamedType`, `ListType`, `NonNullType`. -/
inductive Typ where
  | named (n : NamedType)
  | list (position : Nat) (type : Typ)
  | nonNull (position : Nat) (type : Typ)
  deriving DecidableEq, Repr

/-- Go `ast.Variable`. -/
structure Variable where
  position : Nat
  name : Name
  deriving DecidableEq, Repr

/-- Go `ast.StringValue`. -/
structure StringValue where
  position : Nat
  value : List Int
  block : Bool
  deriving DecidableEq, Repr

/-- Go `ast.Value`; `ast.ObjectField` appears inside `objectValue` as a
(position, name, value) triple to keep the nesting plain. -/
inductive Value where
  | intValue (position : Nat) (value : List Int)
  | floatValue (position : Nat) (value : List Int)
  | stringValue (v : StringValue)
  | booleanValue (position : Nat) (value : Bool)
  | nullValue (position : Nat)
  | enumValue (position : Nat) (value : List Int)
  | listValue (position : Nat) (values : List Value)
  | objectValue (position : Nat) (fields : List (Nat × Name × Value))
  | varValue (v : Variable)

/-- Go `ast.Argument`. -/
structure Argument where
  position : Nat
  name : Name
  value : Value

/-- Go `ast.Directive`. -/
structure Directive where
  position : Nat
  name : Name
  arguments : List Argument := []

/-- Go `ast.VariableDefinition`. -/
structure VariableDefinition where
  position : Nat
  variable_ : Variable
  type : Typ
  defaultValue : Option Value := none
  directives : List Directive := []

/-- Go `ast.FragmentSpread`. -/
structure FragmentSpread where
  position : Nat
  name : Name
  directives : List Directive := []

mutual
/-- Go `ast.SelectionSet`. -/
inductive SelectionSet where
  | mk (position : Nat) (selections : List Selection)
/-- Go `ast.Selection`: `Field`, `FragmentSpread`, `InlineFragment`. -/
inductive Selection where
  | field (f : Field)
  | fragmentSpread (fs : FragmentSpread)
  | inlineFragment (f : InlineFragment)
/-- Go `ast.Field`. -/
inductive Field where
  | mk (position : Nat) (alias_ : Option Name) (name : Name)
      (arguments : List Argument) (directives : List Directive)
      (selectionSet : Option SelectionSet)
/-- Go `ast.InlineFragment`. -/
inductive InlineFragment where
  | mk (position : Nat) (typeCondition : NamedType)
      (directives : List Directive) (selectionSet : SelectionSet)
end

def SelectionSet.position : SelectionSet → Nat
  | .mk pos _ => pos

def SelectionSet.selections : SelectionSet → List Selection
  | .mk _ sels => sels

/-- Go `ast.OperationDefinition`.  The defaults are the Go zero values that an
untouched field keeps (`parseAnonymousOperationDefinition` never assigns
`Position`, so it stays 0). -/
structure OperationDefinition where
  position : Nat := 0
  operationType : OperationType := []
  name : Option Name := none
  variableDefs : List VariableDefinition := []
  directives : List Directive := []
  selectionSet : SelectionSet

/-- Go `ast.FragmentDefinition`. -/
structure FragmentDefinition where
  position : Nat
  name : Name
  typeCondition : NamedType
  directives : List Directive := []
  selectionSet : SelectionSet

/-- Go `ast.RootOperationTypeDefinition`. -/
structure RootOperationTypeDefinition where
  position : Nat
  operationType : OperationType
  type : NamedType
  deriving DecidableEq, Repr

/-- Go `ast.SchemaDefinition`. -/
structure SchemaDefinition where
  position : Nat
  description : Option StringValue := none
  directives : List Directive := []
  rootOperationDefs : List RootOperationTypeDefinition := []

/-- Go `ast.ScalarTypeDefinition`. -/
structure ScalarTypeDefinition where
  position : Nat
  description : Option StringValue := none
  name : Name
  directives : List Directive := []

/-- Go `ast.InputValueDefinition`. -/
structure InputValueDefinition where
  position : Nat
  description : Option StringValue := none
  name : Name
  type : Typ
  defaultValue : Option Value := none
  directives : List Directive := []

/-- Go `ast.FieldDefinition`. -/
structure FieldDefinition where
  position : Nat
  description : Option StringValue := none
  name : Name
  arguments : List InputValueDefinition := []
  type : Typ
  directives : List Directive := []

/-- Go `ast.ObjectTypeDefinition`. -/
structure ObjectTypeDefinition where
  position : Nat
  description : Option StringValue := none
  name : Name
  interfaces : List NamedType := []
  directives : List Directive := []
  fields : List FieldDefinition := []

/-- Go `ast.InterfaceTypeDefinition`. -/
structure InterfaceTypeDefinition where
  position : Nat
  description : Option StringValue := none
  name : Name
  interfaces : List NamedType := []
  directives : List Directive := []
  fields : List FieldDefinition := []

/-- Go `ast.UnionTypeDefinition`. -/
structure UnionTypeDefinition where
  position : Nat
  description : Option StringValue := none
  name : Name
  directives : List Directive := []
  types : List NamedType := []

/-- Go `ast.EnumValueDefinition`. -/
structure EnumValueDefinition where
  position : Nat
  description : Option StringValue := none
  name : Name
  directives : List Directive := []

/-- Go `ast.EnumTypeDefinition`. -/
structure EnumTypeDefinition where
  position : Nat
  description : Option StringValue := none
  name : Name
  directives : List Directive := []
  values : List EnumValueDefinition := []

/-- Go `ast.InputObjectTypeDefinition`. -/
structure InputObjectTypeDefinition where
  position : Nat
  description : Option StringValue := none
  name : Name
  directives : List Directive := []
  fields : List InputValueDefinition := []

/-- Go `ast.DirectiveDefinition`. -/
structure DirectiveDefinition where
  position : Nat
  description : Option StringValue := none
  name : Name
  arguments : List InputValueDefinition := []
  repeatable : Bool := false
  locations : List Name := []

/-- Go `ast.SchemaExtension`. -/
structure SchemaExtension where
  position : Nat
  directives : List Directive := []
  rootOperationDefs : List RootOperationTypeDefinition := []

/-- Go `ast.ScalarTypeExtension`. -/
structure ScalarTypeExtension where
  position : Nat
  name : Name
  directives : List Directive := []

/-- Go `ast.ObjectTypeExtension`. -/
structure ObjectTypeExtension where
  position : Nat
  name : Name
  interfaces : List NamedType := []
  directives : List Directive := []
  fields : List FieldDefinition := []

/-- Go `ast.InterfaceTypeExtension`. -/
structure InterfaceTypeExtension where
  position : Nat
  name : Name
  interfaces : List NamedType := []
  directives : List Directive := []
  fields : List FieldDefinition := []

/-- Go `ast.UnionTypeExtension`. -/
structure UnionTypeExtension where
  position : Nat
  name : Name
  directives : List Directive := []
  types : List NamedType := []

/-- Go `ast.EnumTypeExtension`. -/
structure EnumTypeExtension where
  position : Nat
  name : Name
  directives : List Directive := []
  values : List EnumValueDefinition := []

/-- Go `ast.InputObjectTypeExtension`. -/
structure InputObjectTypeExtension where
  position : Nat
  name : Name
  directives : List Directive := []
  fields : List InputValueDefinition := []

/-- The closed sum behind the `ast.Definition` interface. -/
inductive Definition where
  | operationDef (d : OperationDefinition)
  | fragmentDef (d : FragmentDefinition)
  | schemaDef (d : SchemaDefinition)
  | scalarTypeDef (d : ScalarTypeDefinition)
  | objectTypeDef (d : ObjectTypeDefinition)
  | interfaceTypeDef (d : InterfaceTypeDefinition)
  | unionTypeDef (d : UnionTypeDefinition)
  | enumTypeDef (d : EnumTypeDefinition)
  | inputObjectTypeDef (d : InputObjectTypeDefinition)
  | directiveDef (d : DirectiveDefinition)
  | schemaExt (d : SchemaExtension)
  | scalarTypeExt (d : ScalarTypeExtension)
  | objectTypeExt (d : ObjectTypeExtension)
  | interfaceTypeExt (d : InterfaceTypeExtension)
  | unionTypeExt (d : UnionTypeExtension)
  | enumTypeExt (d : EnumTypeExtension)
  | inputObjectTypeExt (d : InputObjectTypeExtension)

/-- Go `ast.Document`. -/
structure Document where
  definitions : List Definition := []

/-! ## parser (`parser/parser.go`)

The Go parser pulls tokens lazily; here the token list is materialized and
two-token lookahead is the pair `curToken`/`peekToken` plus the remaining
list.  When the list is exhausted the last token is repeated, which is the
lexer's behavior at end of input (it returns the same `EOF` token on every
further call).  `p.next()` in Go can surface a lexer error; in this eager
model lexing errors are raised before parsing starts. -/

structure Parser where
  curToken : Token := {}
  peekToken : Token := {}
  rest : List Token := []
  deriving DecidableEq, Repr

/-- Go `p.next()`: promote `peek` to `cur`, pull the next token. -/
def Parser.next (p : Parser) : Parser :=
  { curToken := p.peekToken, peekToken := p.rest.headD p.peekToken, rest := p.rest.tail }

/-- Go `New`: two zero tokens, then two `next` calls. -/
def mkParser (toks : List Token) : Parser :=
  (Parser.next (Parser.next { rest := toks }))

abbrev PRes (α : Type) := Except String (α × Parser)

/-- Error used when parser fuel recursion runs out; unreachable for the
wrapper bounds. -/
def fuelParseError : String := "out of fuel"

/-- Fuel bound for the parser loops: every loop iteration and every
recursion level consumes at least one token, and no chain of nested calls
between fuel decrements is longer than eight. -/
def parserFuel (p : Parser) : Nat := 8 * p.rest.length + 64

/-- Go `expect`. -/
def Parser.expect (p : Parser) (expectedToken : TokenType) : Except String Unit :=
  if p.curToken.type ≠ expectedToken then
    .error ("expected " ++ expectedToken.str ++ ", got " ++ p.curToken.type.str)
  else .ok ()

/-- Go `expectOneOf`. -/
def Parser.expectOneOf (p : Parser) (expectedTokens : List TokenType) : Except String Unit :=
  if expectedTokens.any (fun t => p.curToken.type = t) then .ok ()
  else
    .error ("expected one of [" ++ String.intercalate ", " (expectedTokens.map TokenType.str)
      ++ "], got " ++ p.curToken.type.str)

/-- Go `expectAndAdvance`. -/
def Parser.expectAndAdvance (p : Parser) (expectedToken : TokenType) : PRes Unit :=
  if p.curToken.type ≠ expectedToken then
    .error ("expected " ++ expectedToken.str ++ ", got " ++ p.curToken.type.str)
  else .ok ((), p.next)

/-- Go `expectLiteralAndAdvance`. -/
def Parser.expectLiteralAndAdvance (p : Parser) (lit : List Int) : PRes Unit :=
  if p.curToken.literal ≠ lit then
    .error ("expected " ++ strOfCodes lit ++ ", got " ++ strOfCodes p.curToken.literal)
  else .ok ((), p.next)

/-- Go `isDescription` of `parser/utils.go`. -/
def isDescription (tok : TokenType) : Bool :=
  decide (tok = .STRING) || decide (tok = .BLOCK_STRING)

/-- Go `parseName`. -/
def Parser.parseName (p : Parser) : PRes Name :=
  match p.expect .NAME with
  | .error e => .error e
  | .ok _ => .ok ({ position := p.curToken.start, value := p.curToken.literal }, p.next)

/-- Go `parseNamedType`. -/
def Parser.parseNamedType (p : Parser) : PRes NamedType :=
  let pos := p.curToken.start
  match p.parseName with
  | .error e => .error e
  | .ok (name, p) => .ok ({ position := pos, name := name }, p)

/-- Go `parseOperationType`: any `NAME` literal is accepted (the validation is
a TODO in the source). -/
def Parser.parseOperationType (p : Parser) : PRes OperationType :=
  match p.expect .NAME with
  | .error e => .error e
  | .ok _ => .ok (p.curToken.literal, p.next)

/-- Go `parseStringValue`. -/
def Parser.parseStringValue (p : Parser) : PRes StringValue :=
  match p.expectOneOf [.STRING, .BLOCK_STRING] with
  | .error e => .error e
  | .ok _ =>
    .ok ({ position := p.curToken.start, value := p.curToken.literal,
           block := decide (p.curToken.type = .BLOCK_STRING) }, p.next)

/-- Go `parseDescription`. -/
def Parser.parseDescription (p : Parser) : PRes StringValue :=
  p.parseStringValue

/-- The `if isDescription(p.curToken.Type) { ... }` prologue shared by the
type-system definition parsers. -/
def parseOptDescription (p : Parser) : PRes (Option StringValue) :=
  if isDescription p.curToken.type then
    match p.parseDescription with
    | .error e => .error e
    | .ok (d, p) => .ok (some d, p)
  else .ok (none, p)

/-- Go `parseVariable`. -/
def Parser.parseVariable (p : Parser) : PRes Value :=
  let pos := p.curToken.start
  match p.expectAndAdvance .DOLLAR with
  | .error e => .error e
  | .ok (_, p) =>
    match p.parseName with
    | .error e => .error e
    | .ok (name, p) => .ok (.varValue { position := pos, name := name }, p)

/-! ### values -/

mutual
/-- Go `parseValue`: dispatch on the current token kind. -/
def parseValueF : Nat → Parser → PRes Value
  | 0, _ => .error fuelParseError
  | fuel + 1, p =>
    match p.curToken.type with
    | .INT => .ok (.intValue p.curToken.start p.curToken.literal, p.next)
    | .FLOAT => .ok (.floatValue p.curToken.start p.curToken.literal, p.next)
    | .STRING | .BLOCK_STRING =>
      match p.parseStringValue with
      | .error e => .error e
      | .ok (v, p) => .ok (.stringValue v, p)
    | .NAME =>
      if p.curToken.literal = codes ("true") then .ok (.booleanValue p.curToken.start true, p.next)
      else if p.curToken.literal = codes ("false") then .ok (.booleanValue p.curToken.start false, p.next)
      else if p.curToken.literal = codes ("null") then .ok (.nullValue p.curToken.start, p.next)
      else .ok (.enumValue p.curToken.start p.curToken.literal, p.next)
    | .DOLLAR => p.parseVariable
    | .LBRACK => parseListValueF fuel p
    | .LBRACE => parseObjectValueF fuel p
    | t => .error ("unexpected value token: " ++ t.str)

/-- Go `parseListValue`. -/
def parseListValueF : Nat → Parser → PRes Value
  | 0, _ => .error fuelParseError
  | fuel + 1, p =>
    let pos := p.curToken.start
    match p.expectAndAdvance .LBRACK with
    | .error e => .error e
    | .ok (_, p) => parseListValuesLoop fuel pos [] p

/-- The element loop of `parseListValue`, followed by the closing `]`. -/
def parseListValuesLoop : Nat → Nat → List Value → Parser → PRes Value
  | 0, _, _, _ => .error fuelParseError
  | fuel + 1, pos, acc, p =>
    if p.curToken.type ≠ .RBRACK ∧ p.curToken.type ≠ .EOF then
      match parseValueF fuel p with
      | .error e => .error e
      | .ok (v, p) => parseListValuesLoop fuel pos (acc ++ [v]) p
    else
      match p.expectAndAdvance .RBRACK with
      | .error e => .error e
      | .ok (_, p) => .ok (.listValue pos acc, p)

/-- Go `parseObjectValue`. -/
def parseObjectValueF : Nat → Parser → PRes Value
  | 0, _ => .error fuelParseError
  | fuel + 1, p =>
    let pos := p.curToken.start
    match p.expectAndAdvance .LBRACE with
    | .error e => .error e
    | .ok (_, p) => parseObjectFieldsLoop fuel pos [] p

/-- The field loop of `parseObjectValue`, followed by the closing brace. -/
def parseObjectFieldsLoop : Nat → Nat → List (Nat × Name × Value) → Parser → PRes Value
  | 0, _, _, _ => .error fuelParseError
  | fuel + 1, pos, acc, p =>
    if p.curToken.type ≠ .RBRACE ∧ p.curToken.type ≠ .EOF then
      match parseObjectFieldF fuel p with
      | .error e => .error e
      | .ok (f, p) => parseObjectFieldsLoop fuel pos (acc ++ [f]) p
    else
      match p.expectAndAdvance .RBRACE with
      | .error e => .error e
      | .ok (_, p) => .ok (.objectValue pos acc, p)

/-- Go `parseObjectField`. -/
def parseObjectFieldF : Nat → Parser → PRes (Nat × Name × Value)
  | 0, _ => .error fuelParseError
  | fuel + 1, p =>
    let pos := p.curToken.start
    match p.parseName with
    | .error e => .error e
    | .ok (name, p) =>
      match p.expectAndAdvance .COLON with
      | .error e => .error e
      | .ok (_, p) =>
        match parseValueF fuel p with
        | .error e => .error e
        | .ok (v, p) => .ok ((pos, name, v), p)
end

def Parser.parseValue (p : Parser) : PRes Value :=
  parseValueF (parserFuel p) p

/-! ### call-site arguments and directives -/

/-- Go `parseArgument`. -/
def Parser.parseArgument (p : Parser) : PRes Argument :=
  let pos := p.curToken.start
  match p.parseName with
  | .error e => .error e
  | .ok (name, p) =>
    match p.expectAndAdvance .COLON with
    | .error e => .error e
    | .ok (_, p) =>
      match p.parseValue with
      | .error e => .error e
      | .ok (value, p) => .ok ({ position := pos, name := name, value := value }, p)

def parseArgumentsLoop : Nat → List Argument → Parser → PRes (List Argument)
  | 0, _, _ => .error fuelParseError
  | fuel + 1, acc, p =>
    if p.curToken.type ≠ .RPAREN ∧ p.curToken.type ≠ .EOF then
      match p.parseArgument with
      | .error e => .error e
      | .ok (arg, p) => parseArgumentsLoop fuel (acc ++ [arg]) p
    else
      match p.expectAndAdvance .RPAREN with
      | .error e => .error e
      | .ok (_, p) => .ok (acc, p)

/-- Go `parseArguments`. -/
def Parser.parseArguments (p : Parser) : PRes (List Argument) :=
  match p.expectAndAdvance .LPAREN with
  | .error e => .error e
  | .ok (_, p) => parseArgumentsLoop (parserFuel p) [] p

/-- Go `parseDirective`. -/
def Parser.parseDirective (p : Parser) : PRes Directive :=
  let pos := p.curToken.start
  match p.expectAndAdvance .AT with
  | .error e => .error e
  | .ok (_, p) =>
    match p.parseName with
    | .error e => .error e
    | .ok (name, p) =>
      match (if p.curToken.type = .LPAREN then p.parseArguments else .ok ([], p)) with
      | .error e => .error e
      | .ok (args, p) => .ok ({ position := pos, name := name, arguments := args }, p)

def parseDirectivesLoop : Nat → List Directive → Parser → PRes (List Directive)
  | 0, _, _ => .error fuelParseError
  | fuel + 1, acc, p =>
    if p.curToken.type = .AT then
      match p.parseDirective with
      | .error e => .error e
      | .ok (d, p) => parseDirectivesLoop fuel (acc ++ [d]) p
    else .ok (acc, p)

/-- Go `parseDirectives`. -/
def Parser.parseDirectives (p : Parser) : PRes (List Directive) :=
  parseDirectivesLoop (parserFuel p) [] p

/-! ### types -/

/-- The named-or-list part of `parseType` (everything before the `!`
check): bracketed list types recurse through `recur`, a bare `NAME` is a
named type. -/
def parseTypeInnerGo (recur : Parser → PRes Typ) (p : Parser) : PRes Typ :=
  let pos := p.curToken.start
  if p.curToken.type = .LBRACK then
    match recur p.next with
    | .error e => .error e
    | .ok (innerType, p) =>
      match p.expectAndAdvance .RBRACK with
      | .error e => .error e
      | .ok (_, p) => .ok (.list pos innerType, p)
  else if p.curToken.type = .NAME then
    match p.parseNamedType with
    | .error e => .error e
    | .ok (nt, p) => .ok (.named nt, p)
  else .error ("unexpected token in type: " ++ p.curToken.type.str)

/-- Go `parseType`: the named or list type just built, wrapped in a
`NonNullType` when a single trailing `!` follows. -/
def parseTypeF : Nat → Parser → PRes Typ
  | 0, _ => .error fuelParseError
  | fuel + 1, p =>
    match parseTypeInnerGo (parseTypeF fuel) p with
    | .error e => .error e
    | .ok (typ, p) =>
      if p.curToken.type = .BANG then .ok (.nonNull p.curToken.start typ, p.next)
      else .ok (typ, p)

def Parser.parseType (p : Parser) : PRes Typ :=
  parseTypeF (parserFuel p) p

/-! ### variable definitions -/

/-- Go `parseVariableDefinition`; the source type-asserts the `parseVariable`
result to `*ast.Variable`, which the `varValue` match mirrors. -/
def Parser.parseVariableDefinition (p : Parser) : PRes VariableDefinition :=
  let pos := p.curToken.start
  match p.parseVariable with
  | .error e => .error e
  | .ok (val, p) =>
    match val with
    | .varValue variable_ =>
      match p.expectAndAdvance .COLON with
      | .error e => .error e
      | .ok (_, p) =>
        match p.parseType with
        | .error e => .error e
        | .ok (typ, p) =>
          match (if p.curToken.type = .EQUALS then
                   match (p.next).parseValue with
                   | .error e => .error e
                   | .ok (v, p) => .ok (some v, p)
                 else .ok (none, p) : PRes (Option Value)) with
          | .error e => .error e
          | .ok (dv, p) =>
            match p.parseDirectives with
            | .error e => .error e
            | .ok (dirs, p) =>
              .ok ({ position := pos, variable_ := variable_, type := typ,
                     defaultValue := dv, directives := dirs }, p)
    | _ => .error ("expected *ast.Variable")

def parseVariableDefinitionsLoop : Nat → List VariableDefinition → Parser → PRes (List VariableDefinition)
  | 0, _, _ => .error fuelParseError
  | fuel + 1, acc, p =>
    if p.curToken.type ≠ .RPAREN ∧ p.curToken.type ≠ .EOF then
      match p.parseVariableDefinition with
      | .error e => .error e
      | .ok (d, p) => parseVariableDefinitionsLoop fuel (acc ++ [d]) p
    else
      match p.expectAndAdvance .RPAREN with
      | .error e => .error e
      | .ok (_, p) => .ok (acc, p)

/-- Go `parseVariableDefinitions`. -/
def Parser.parseVariableDefinitions (p : Parser) : PRes (List VariableDefinition) :=
  match p.expectAndAdvance .LPAREN with
  | .error e => .error e
  | .ok (_, p) => parseVariableDefinitionsLoop (parserFuel p) [] p

/-! ### selections -/

/-- Go `parseFragmentSpread` (the `...` has already been consumed). -/
def Parser.parseFragmentSpread (p : Parser) : PRes FragmentSpread :=
  let pos := p.curToken.start
  match p.parseName with
  | .error e => .error e
  | .ok (name, p) =>
    match p.parseDirectives with
    | .error e => .error e
    | .ok (dirs, p) => .ok ({ position := pos, name := name, directives := dirs }, p)

mutual
/-- Go `parseSelectionSet`: `{`, selections until `}` or EOF, `}`. -/
def parseSelectionSetF : Nat → Parser → PRes SelectionSet
  | 0, _ => .error fuelParseError
  | fuel + 1, p =>
    let pos := p.curToken.start
    match p.expectAndAdvance .LBRACE with
    | .error e => .error e
    | .ok (_, p) => parseSelectionsLoop fuel pos [] p

/-- The selection loop of `parseSelectionSet`, followed by the closing
brace. -/
def parseSelectionsLoop : Nat → Nat → List Selection → Parser → PRes SelectionSet
  | 0, _, _, _ => .error fuelParseError
  | fuel + 1, pos, acc, p =>
    if p.curToken.type ≠ .RBRACE ∧ p.curToken.type ≠ .EOF then
      match parseSelectionF fuel p with
      | .error e => .error e
      | .ok (sel, p) => parseSelectionsLoop fuel pos (acc ++ [sel]) p
    else
      match p.expectAndAdvance .RBRACE with
      | .error e => .error e
      | .ok (_, p) => .ok (.mk pos acc, p)

/-- Go `parseSelection`. -/
def parseSelectionF : Nat → Parser → PRes Selection
  | 0, _ => .error fuelParseError
  | fuel + 1, p =>
    if p.curToken.type = .SPREAD then parseFragmentF fuel p
    else parseFieldF fuel p

/-- Go `parseField`, including the `NAME COLON` alias lookahead. -/
def parseFieldF : Nat → Parser → PRes Selection
  | 0, _ => .error fuelParseError
  | fuel + 1, p =>
    let pos := p.curToken.start
    match (if p.curToken.type = .NAME ∧ p.peekToken.type = .COLON then
             match p.parseName with
             | .error e => .error e
             | .ok (a, p) => .ok (some a, p.next)
           else .ok (none, p) : PRes (Option Name)) with
    | .error e => .error e
    | .ok (alias_, p) =>
      match p.parseName with
      | .error e => .error e
      | .ok (name, p) =>
        match (if p.curToken.type = .LPAREN then p.parseArguments else .ok ([], p)) with
        | .error e => .error e
        | .ok (args, p) =>
          match p.parseDirectives with
          | .error e => .error e
          | .ok (dirs, p) =>
            match (if p.curToken.type = .LBRACE then
                     match parseSelectionSetF fuel p with
                     | .error e => .error e
                     | .ok (ss, p) => .ok (some ss, p)
                   else .ok (none, p) : PRes (Option SelectionSet)) with
            | .error e => .error e
            | .ok (ss, p) => .ok (.field (.mk pos alias_ name args dirs ss), p)

/-- Go `parseFragment`: consume `...`, then inline fragment on the literal
`on`, else fragment spread. -/
def parseFragmentF : Nat → Parser → PRes Selection
  | 0, _ => .error fuelParseError
  | fuel + 1, p =>
    let p := p.next
    if p.curToken.literal = codes ("on") then parseInlineFragmentF fuel p
    else
      match p.parseFragmentSpread with
      | .error e => .error e
      | .ok (fs, p) => .ok (.fragmentSpread fs, p)

/-- Go `parseInlineFragment`. -/
def parseInlineFragmentF : Nat → Parser → PRes Selection
  | 0, _ => .error fuelParseError
  | fuel + 1, p =>
    let pos := p.curToken.start
    let p := p.next
    match p.parseNamedType with
    | .error e => .error e
    | .ok (nt, p) =>
      match p.parseDirectives with
      | .error e => .error e
      | .ok (dirs, p) =>
        match parseSelectionSetF fuel p with
        | .error e => .error e
        | .ok (ss, p) => .ok (.inlineFragment (.mk pos nt dirs ss), p)
end

def Parser.parseSelectionSet (p : Parser) : PRes SelectionSet :=
  parseSelectionSetF (parserFuel p) p

/-! ### operations and fragments -/

/-- Go `parseOperationDefinition`. -/
def Parser.parseOperationDefinition (p : Parser) : PRes OperationDefinition :=
  let pos := p.curToken.start
  match p.parseOperationType with
  | .error e => .error e
  | .ok (opType, p) =>
    match (if p.curToken.type = .NAME then
             match p.parseName with
             | .error e => .error e
             | .ok (n, p) => .ok (some n, p)
           else .ok (none, p) : PRes (Option Name)) with
    | .error e => .error e
    | .ok (name, p) =>
      match (if p.curToken.type = .LPAREN then p.parseVariableDefinitions else .ok ([], p)) with
      | .error e => .error e
      | .ok (varDefs, p) =>
        match p.parseDirectives with
        | .error e => .error e
        | .ok (dirs, p) =>
          match p.parseSelectionSet with
          | .error e => .error e
          | .ok (ss, p) =>
            .ok ({ position := pos, operationType := opType, name := name,
                   variableDefs := varDefs, directives := dirs, selectionSet := ss }, p)

/-- Go `parseAnonymousOperationDefinition`: operation type `query`, no name,
no position assignment. -/
def Parser.parseAnonymousOperationDefinition (p : Parser) : PRes OperationDefinition :=
  match p.parseSelectionSet with
  | .error e => .error e
  | .ok (ss, p) => .ok ({ operationType := codes ("query"), selectionSet := ss }, p)

/-- Go `parseTypeCondition`: the literal `on` then a named type. -/
def Parser.parseTypeCondition (p : Parser) : PRes NamedType :=
  match p.expectLiteralAndAdvance (codes ("on")) with
  | .error e => .error e
  | .ok (_, p) => p.parseNamedType

/-- Go `parseFragmentDefinition`. -/
def Parser.parseFragmentDefinition (p : Parser) : PRes FragmentDefinition :=
  let pos := p.curToken.start
  match p.expectLiteralAndAdvance (codes ("fragment")) with
  | .error e => .error e
  | .ok (_, p) =>
    match p.parseName with
    | .error e => .error e
    | .ok (name, p) =>
      match p.parseTypeCondition with
      | .error e => .error e
      | .ok (tc, p) =>
        match p.parseSelectionSet with
        | .error e => .error e
        | .ok (ss, p) =>
          .ok ({ position := pos, name := name, typeCondition := tc,
                 directives := [], selectionSet := ss }, p)

/-! ### type-system definitions -/

/-- Go `parseRootOperationTypeDefinition`: `OperationType : NamedType`. -/
def Parser.parseRootOperationTypeDefinition (p : Parser) : PRes RootOperationTypeDefinition :=
  let pos := p.curToken.start
  match p.parseOperationType with
  | .error e => .error e
  | .ok (opType, p) =>
    match p.expectAndAdvance .COLON with
    | .error e => .error e
    | .ok (_, p) =>
      match p.parseNamedType with
      | .error e => .error e
      | .ok (nt, p) => .ok ({ position := pos, operationType := opType, type := nt }, p)

/-- The root-operation loop shared by `parseSchemaDefinition` and
`parseSchemaExtension` (runs until `}` or EOF; the brace is consumed by the
caller). -/
def parseRootOpsLoop : Nat → List RootOperationTypeDefinition → Parser → PRes (List RootOperationTypeDefinition)
  | 0, _, _ => .error fuelParseError
  | fuel + 1, acc, p =>
    if p.curToken.type ≠ .RBRACE ∧ p.curToken.type ≠ .EOF then
      match p.parseRootOperationTypeDefinition with
      | .error e => .error e
      | .ok (d, p) => parseRootOpsLoop fuel (acc ++ [d]) p
    else .ok (acc, p)

/-- Go `parseSchemaDefinition`. -/
def Parser.parseSchemaDefinition (p : Parser) : PRes Definition :=
  let pos := p.curToken.start
  match parseOptDescription p with
  | .error e => .error e
  | .ok (desc, p) =>
    match p.expectLiteralAndAdvance (codes ("schema")) with
    | .error e => .error e
    | .ok (_, p) =>
      match p.parseDirectives with
      | .error e => .error e
      | .ok (dirs, p) =>
        match p.expectAndAdvance .LBRACE with
        | .error e => .error e
        | .ok (_, p) =>
          match parseRootOpsLoop (parserFuel p) [] p with
          | .error e => .error e
          | .ok (defs, p) =>
            match p.expectAndAdvance .RBRACE with
            | .error e => .error e
            | .ok (_, p) =>
              .ok (.schemaDef { position := pos, description := desc,
                                directives := dirs, rootOperationDefs := defs }, p)

/-- Go `parseScalarTypeDefinition`. -/
def Parser.parseScalarTypeDefinition (p : Parser) : PRes Definition :=
  let pos := p.curToken.start
  match parseOptDescription p with
  | .error e => .error e
  | .ok (desc, p) =>
    match p.expectLiteralAndAdvance (codes ("scalar")) with
    | .error e => .error e
    | .ok (_, p) =>
      match p.parseName with
      | .error e => .error e
      | .ok (name, p) =>
        match p.parseDirectives with
        | .error e => .error e
        | .ok (dirs, p) =>
          .ok (.scalarTypeDef { position := pos, description := desc,
                                name := name, directives := dirs }, p)

/-- Go `parseImplementsInterfaces`: `implements` then `&`-separated named
types (the `&` is accepted between items). -/
def parseImplementsLoop : Nat → List NamedType → Parser → PRes (List NamedType)
  | 0, _, _ => .error fuelParseError
  | fuel + 1, acc, p =>
    match p.parseNamedType with
    | .error e => .error e
    | .ok (nt, p) =>
      if p.curToken.type = .AMP then parseImplementsLoop fuel (acc ++ [nt]) p.next
      else .ok (acc ++ [nt], p)

def Parser.parseImplementsInterfaces (p : Parser) : PRes (List NamedType) :=
  match p.expectLiteralAndAdvance (codes ("implements")) with
  | .error e => .error e
  | .ok (_, p) => parseImplementsLoop (parserFuel p) [] p

/-- Go `parseInputValueDefinition`. -/
def Parser.parseInputValueDefinition (p : Parser) : PRes InputValueDefinition :=
  let pos := p.curToken.start
  match parseOptDescription p with
  | .error e => .error e
  | .ok (desc, p) =>
    match p.parseName with
    | .error e => .error e
    | .ok (name, p) =>
      match p.expectAndAdvance .COLON with
      | .error e => .error e
      | .ok (_, p) =>
        match p.parseType with
        | .error e => .error e
        | .ok (typ, p) =>
          match (if p.curToken.type = .EQUALS then
                   match (p.next).parseValue with
                   | .error e => .error e
                   | .ok (v, p) => .ok (some v, p)
                 else .ok (none, p) : PRes (Option Value)) with
          | .error e => .error e
          | .ok (dv, p) =>
            match p.parseDirectives with
            | .error e => .error e
            | .ok (dirs, p) =>
              .ok ({ position := pos, description := desc, name := name, type := typ,
                     defaultValue := dv, directives := dirs }, p)

/-- The element loop of `parseArgumentsDefinition` (closed by `)`). -/
def parseArgumentsDefinitionLoop : Nat → List InputValueDefinition → Parser → PRes (List InputValueDefinition)
  | 0, _, _ => .error fuelParseError
  | fuel + 1, acc, p =>
    if p.curToken.type ≠ .RPAREN ∧ p.curToken.type ≠ .EOF then
      match p.parseInputValueDefinition with
      | .error e => .error e
      | .ok (d, p) => parseArgumentsDefinitionLoop fuel (acc ++ [d]) p
    else
      match p.expectAndAdvance .RPAREN with
      | .error e => .error e
      | .ok (_, p) => .ok (acc, p)

/-- Go `parseArgumentsDefinition`. -/
def Parser.parseArgumentsDefinition (p : Parser) : PRes (List InputValueDefinition) :=
  match p.expectAndAdvance .LPAREN with
  | .error e => .error e
  | .ok (_, p) => parseArgumentsDefinitionLoop (parserFuel p) [] p

/-- The element loop of `parseInputFieldsDefinition` (closed by `}`). -/
def parseInputFieldsDefinitionLoop : Nat → List InputValueDefinition → Parser → PRes (List InputValueDefinition)
  | 0, _, _ => .error fuelParseError
  | fuel + 1, acc, p =>
    if p.curToken.type ≠ .RBRACE ∧ p.curToken.type ≠ .EOF then
      match p.parseInputValueDefinition with
      | .error e => .error e
      | .ok (d, p) => parseInputFieldsDefinitionLoop fuel (acc ++ [d]) p
    else
      match p.expectAndAdvance .RBRACE with
      | .error e => .error e
      | .ok (_, p) => .ok (acc, p)

/-- Go `parseInputFieldsDefinition`. -/
def Parser.parseInputFieldsDefinition (p : Parser) : PRes (List InputValueDefinition) :=
  match p.expectAndAdvance .LBRACE with
  | .error e => .error e
  | .ok (_, p) => parseInputFieldsDefinitionLoop (parserFuel p) [] p

/-- Go `parseFieldDefinition`. -/
def Parser.parseFieldDefinition (p : Parser) : PRes FieldDefinition :=
  let pos := p.curToken.start
  match parseOptDescription p with
  | .error e => .error e
  | .ok (desc, p) =>
    match p.parseName with
    | .error e => .error e
    | .ok (name, p) =>
      match (if p.curToken.type = .LPAREN then p.parseArgumentsDefinition else .ok ([], p)) with
      | .error e => .error e
      | .ok (args, p) =>
        match p.expectAndAdvance .COLON with
        | .error e => .error e
        | .ok (_, p) =>
          match p.parseType with
          | .error e => .error e
          | .ok (typ, p) =>
            match p.parseDirectives with
            | .error e => .error e
            | .ok (dirs, p) =>
              .ok ({ position := pos, description := desc, name := name,
                     arguments := args, type := typ, directives := dirs }, p)

/-- The element loop of `parseFieldsDefinition` (closed by `}`). -/
def parseFieldsDefinitionLoop : Nat → List FieldDefinition → Parser → PRes (List FieldDefinition)
  | 0, _, _ => .error fuelParseError
  | fuel + 1, acc, p =>
    if p.curToken.type ≠ .RBRACE ∧ p.curToken.type ≠ .EOF then
      match p.parseFieldDefinition with
      | .error e => .error e
      | .ok (d, p) => parseFieldsDefinitionLoop fuel (acc ++ [d]) p
    else
      match p.expectAndAdvance .RBRACE with
      | .error e => .error e
      | .ok (_, p) => .ok (acc, p)

/-- Go `parseFieldsDefinition`. -/
def Parser.parseFieldsDefinition (p : Parser) : PRes (List FieldDefinition) :=
  match p.expectAndAdvance .LBRACE with
  | .error e => .error e
  | .ok (_, p) => parseFieldsDefinitionLoop (parserFuel p) [] p

/-- Go `parseObjectTypeDefinition`. -/
def Parser.parseObjectTypeDefinition (p : Parser) : PRes Definition :=
  let pos := p.curToken.start
  match parseOptDescription p with
  | .error e => .error e
  | .ok (desc, p) =>
    match p.expectLiteralAndAdvance (codes ("type")) with
    | .error e => .error e
    | .ok (_, p) =>
      match p.parseName with
      | .error e => .error e
      | .ok (name, p) =>
        match (if p.curToken.literal = codes ("implements")
               then p.parseImplementsInterfaces else .ok ([], p)) with
        | .error e => .error e
        | .ok (ii, p) =>
          match p.parseDirectives with
          | .error e => .error e
          | .ok (dirs, p) =>
            match (if p.curToken.type = .LBRACE then p.parseFieldsDefinition else .ok ([], p)) with
            | .error e => .error e
            | .ok (fields, p) =>
              .ok (.objectTypeDef { position := pos, description := desc, name := name,
                                    interfaces := ii, directives := dirs, fields := fields }, p)

/-- Go `parseInterfaceTypeDefinition`. -/
def Parser.parseInterfaceTypeDefinition (p : Parser) : PRes Definition :=
  let pos := p.curToken.start
  match parseOptDescription p with
  | .error e => .error e
  | .ok (desc, p) =>
    match p.expectLiteralAndAdvance (codes ("interface")) with
    | .error e => .error e
    | .ok (_, p) =>
      match p.parseName with
      | .error e => .error e
      | .ok (name, p) =>
        match (if p.curToken.literal = codes ("implements")
               then p.parseImplementsInterfaces else .ok ([], p)) with
        | .error e => .error e
        | .ok (ii, p) =>
          match p.parseDirectives with
          | .error e => .error e
          | .ok (dirs, p) =>
            match (if p.curToken.type = .LBRACE then p.parseFieldsDefinition else .ok ([], p)) with
            | .error e => .error e
            | .ok (fields, p) =>
              .ok (.interfaceTypeDef { position := pos, description := desc, name := name,
                                       interfaces := ii, directives := dirs, fields := fields }, p)

/-- Go `parseUnionMemberTypes`: `=` then `|`-separated named types. -/
def parseUnionMemberTypesLoop : Nat → List NamedType → Parser → PRes (List NamedType)
  | 0, _, _ => .error fuelParseError
  | fuel + 1, acc, p =>
    match p.parseNamedType with
    | .error e => .error e
    | .ok (nt, p) =>
      if p.curToken.type = .PIPE then parseUnionMemberTypesLoop fuel (acc ++ [nt]) p.next
      else .ok (acc ++ [nt], p)

def Parser.parseUnionMemberTypes (p : Parser) : PRes (List NamedType) :=
  match p.expectAndAdvance .EQUALS with
  | .error e => .error e
  | .ok (_, p) => parseUnionMemberTypesLoop (parserFuel p) [] p

/-- Go `parseUnionTypeDefinition`. -/
def Parser.parseUnionTypeDefinition (p : Parser) : PRes Definition :=
  let pos := p.curToken.start
  match parseOptDescription p with
  | .error e => .error e
  | .ok (desc, p) =>
    match p.expectLiteralAndAdvance (codes ("union")) with
    | .error e => .error e
    | .ok (_, p) =>
      match p.parseName with
      | .error e => .error e
      | .ok (name, p) =>
        match p.parseDirectives with
        | .error e => .error e
        | .ok (dirs, p) =>
          match (if p.curToken.type = .EQUALS then p.parseUnionMemberTypes else .ok ([], p)) with
          | .error e => .error e
          | .ok (types, p) =>
            .ok (.unionTypeDef { position := pos, description := desc, name := name,
                                 directives := dirs, types := types }, p)

/-- Go `parseEnumValueName`: a `NAME` that is not `true`, `false` or `null`. -/
def Parser.parseEnumValueName (p : Parser) : PRes Name :=
  match p.expect .NAME with
  | .error e => .error e
  | .ok _ =>
    if p.curToken.literal = codes ("true") ∨ p.curToken.literal = codes ("false")
        ∨ p.curToken.literal = codes ("null") then
      .error ("unexpected: " ++ strOfCodes p.curToken.literal)
    else p.parseName

/-- Go `parseEnumValueDefinition`. -/
def Parser.parseEnumValueDefinition (p : Parser) : PRes EnumValueDefinition :=
  let pos := p.curToken.start
  match parseOptDescription p with
  | .error e => .error e
  | .ok (desc, p) =>
    match p.parseEnumValueName with
    | .error e => .error e
    | .ok (name, p) =>
      match p.parseDirectives with
      | .error e => .error e
      | .ok (dirs, p) =>
        .ok ({ position := pos, description := desc, name := name, directives := dirs }, p)

/-- The element loop of `parseEnumValuesDefinition` (closed by `}`). -/
def parseEnumValuesLoop : Nat → List EnumValueDefinition → Parser → PRes (List EnumValueDefinition)
  | 0, _, _ => .error fuelParseError
  | fuel + 1, acc, p =>
    if p.curToken.type ≠ .RBRACE ∧ p.curToken.type ≠ .EOF then
      match p.parseEnumValueDefinition with
      | .error e => .error e
      | .ok (d, p) => parseEnumValuesLoop fuel (acc ++ [d]) p
    else
      match p.expectAndAdvance .RBRACE with
      | .error e => .error e
      | .ok (_, p) => .ok (acc, p)

/-- Go `parseEnumValuesDefinition`. -/
def Parser.parseEnumValuesDefinition (p : Parser) : PRes (List EnumValueDefinition) :=
  match p.expectAndAdvance .LBRACE with
  | .error e => .error e
  | .ok (_, p) => parseEnumValuesLoop (parserFuel p) [] p

/-- Go `parseEnumTypeDefinition`. -/
def Parser.parseEnumTypeDefinition (p : Parser) : PRes Definition :=
  let pos := p.curToken.start
  match parseOptDescription p with
  | .error e => .error e
  | .ok (desc, p) =>
    match p.expectLiteralAndAdvance (codes ("enum")) with
    | .error e => .error e
    | .ok (_, p) =>
      match p.parseName with
      | .error e => .error e
      | .ok (name, p) =>
        match p.parseDirectives with
        | .error e => .error e
        | .ok (dirs, p) =>
          match (if p.curToken.type = .LBRACE then p.parseEnumValuesDefinition else .ok ([], p)) with
          | .error e => .error e
          | .ok (vals, p) =>
            .ok (.enumTypeDef { position := pos, description := desc, name := name,
                                directives := dirs, values := vals }, p)

/-- Go `parseInputObjectTypeDefinition`. -/
def Parser.parseInputObjectTypeDefinition (p : Parser) : PRes Definition :=
  let pos := p.curToken.start
  match parseOptDescription p with
  | .error e => .error e
  | .ok (desc, p) =>
    match p.expectLiteralAndAdvance (codes ("input")) with
    | .error e => .error e
    | .ok (_, p) =>
      match p.parseName with
      | .error e => .error e
      | .ok (name, p) =>
        match p.parseDirectives with
        | .error e => .error e
        | .ok (dirs, p) =>
          match (if p.curToken.type = .LBRACE then p.parseInputFieldsDefinition else .ok ([], p)) with
          | .error e => .error e
          | .ok (fields, p) =>
            .ok (.inputObjectTypeDef { position := pos, description := desc, name := name,
                                       directives := dirs, fields := fields }, p)

/-- Go `parseDirectiveLocations`: `|`-separated names; the leading name is
mandatory. -/
def parseDirectiveLocationsLoop : Nat → List Name → Parser → PRes (List Name)
  | 0, _, _ => .error fuelParseError
  | fuel + 1, acc, p =>
    match p.parseName with
    | .error e => .error e
    | .ok (n, p) =>
      if p.curToken.type = .PIPE then parseDirectiveLocationsLoop fuel (acc ++ [n]) p.next
      else .ok (acc ++ [n], p)

def Parser.parseDirectiveLocations (p : Parser) : PRes (List Name) :=
  parseDirectiveLocationsLoop (parserFuel p) [] p

/-- Go `parseDirectiveDefinition`. -/
def Parser.parseDirectiveDefinition (p : Parser) : PRes Definition :=
  let pos := p.curToken.start
  match parseOptDescription p with
  | .error e => .error e
  | .ok (desc, p) =>
    match p.expectLiteralAndAdvance (codes ("directive")) with
    | .error e => .error e
    | .ok (_, p) =>
      match p.expectAndAdvance .AT with
      | .error e => .error e
      | .ok (_, p) =>
        match p.parseName with
        | .error e => .error e
        | .ok (name, p) =>
          match (if p.curToken.type = .LPAREN then p.parseArgumentsDefinition else .ok ([], p)) with
          | .error e => .error e
          | .ok (args, p) =>
            let (repeatable, p) :=
              if p.curToken.literal = codes ("repeatable") then (true, p.next) else (false, p)
            match p.expectLiteralAndAdvance (codes ("on")) with
            | .error e => .error e
            | .ok (_, p) =>
              match p.parseDirectiveLocations with
              | .error e => .error e
              | .ok (locs, p) =>
                .ok (.directiveDef { position := pos, description := desc, name := name,
                                     arguments := args, repeatable := repeatable,
                                     locations := locs }, p)

/-! ### extensions -/

/-- Go `parseSchemaExtension`.  The source tests `p.curToken.Type !=
token.LBRACE` before entering the root-operation block (and consumes the
current token on entry), which this definition mirrors verbatim. -/
def Parser.parseSchemaExtension (p : Parser) : PRes Definition :=
  let pos := p.curToken.start
  match p.expectLiteralAndAdvance (codes ("extend")) with
  | .error e => .error e
  | .ok (_, p) =>
    match p.expectLiteralAndAdvance (codes ("schema")) with
    | .error e => .error e
    | .ok (_, p) =>
      match p.parseDirectives with
      | .error e => .error e
      | .ok (dirs, p) =>
        if p.curToken.type ≠ .LBRACE then
          let p := p.next
          match parseRootOpsLoop (parserFuel p) [] p with
          | .error e => .error e
          | .ok (defs, p) =>
            match p.expectAndAdvance .RBRACE with
            | .error e => .error e
            | .ok (_, p) =>
              .ok (.schemaExt { position := pos, directives := dirs,
                                rootOperationDefs := defs }, p)
        else
          .ok (.schemaExt { position := pos, directives := dirs,
                            rootOperationDefs := [] }, p)

/-- Go `parseScalarTypeExtension`: an empty directive list is rejected with
`directives required`. -/
def Parser.parseScalarTypeExtension (p : Parser) : PRes Definition :=
  let pos := p.curToken.start
  match p.expectLiteralAndAdvance (codes ("extend")) with
  | .error e => .error e
  | .ok (_, p) =>
    match p.expectLiteralAndAdvance (codes ("scalar")) with
    | .error e => .error e
    | .ok (_, p) =>
      match p.parseName with
      | .error e => .error e
      | .ok (name, p) =>
        match p.parseDirectives with
        | .error e => .error e
        | .ok (dirs, p) =>
          if dirs.length = 0 then .error ("directives required")
          else .ok (.scalarTypeExt { position := pos, name := name, directives := dirs }, p)

/-- Go `parseObjectTypeExtension`: implements clause, directives and fields
are each optional and, unlike the interface/union/scalar extensions, no
at-least-one-modification check is made. -/
def Parser.parseObjectTypeExtension (p : Parser) : PRes Definition :=
  let pos := p.curToken.start
  match p.expectLiteralAndAdvance (codes ("extend")) with
  | .error e => .error e
  | .ok (_, p) =>
    match p.expectLiteralAndAdvance (codes ("type")) with
    | .error e => .error e
    | .ok (_, p) =>
      match p.parseName with
      | .error e => .error e
      | .ok (name, p) =>
        match (if p.curToken.literal = codes ("implements")
               then p.parseImplementsInterfaces else .ok ([], p)) with
        | .error e => .error e
        | .ok (ii, p) =>
          match p.parseDirectives with
          | .error e => .error e
          | .ok (dirs, p) =>
            match (if p.curToken.type = .LBRACE then p.parseFieldsDefinition else .ok ([], p)) with
            | .error e => .error e
            | .ok (fields, p) =>
              .ok (.objectTypeExt { position := pos, name := name, interfaces := ii,
                                    directives := dirs, fields := fields }, p)

/-- Go `parseInterfaceTypeExtension`: requires at least one of implements
clause, directives or fields. -/
def Parser.parseInterfaceTypeExtension (p : Parser) : PRes Definition :=
  let pos := p.curToken.start
  match p.expectLiteralAndAdvance (codes ("extend")) with
  | .error e => .error e
  | .ok (_, p) =>
    match p.expectLiteralAndAdvance (codes ("interface")) with
    | .error e => .error e
    | .ok (_, p) =>
      match p.parseName with
      | .error e => .error e
      | .ok (name, p) =>
        match (if p.curToken.literal = codes ("implements")
               then p.parseImplementsInterfaces else .ok ([], p)) with
        | .error e => .error e
        | .ok (ii, p) =>
          match p.parseDirectives with
          | .error e => .error e
          | .ok (dirs, p) =>
            match (if p.curToken.type = .LBRACE then p.parseFieldsDefinition else .ok ([], p)) with
            | .error e => .error e
            | .ok (fields, p) =>
              if ii.isEmpty && dirs.isEmpty && fields.isEmpty then
                .error ("unexpected: " ++ strOfCodes p.curToken.literal)
              else
                .ok (.interfaceTypeExt { position := pos, name := name, interfaces := ii,
                                         directives := dirs, fields := fields }, p)

/-- Go `parseUnionTypeExtension`: requires directives or member types. -/
def Parser.parseUnionTypeExtension (p : Parser) : PRes Definition :=
  let pos := p.curToken.start
  match p.expectLiteralAndAdvance (codes ("extend")) with
  | .error e => .error e
  | .ok (_, p) =>
    match p.expectLiteralAndAdvance (codes ("union")) with
    | .error e => .error e
    | .ok (_, p) =>
      match p.parseName with
      | .error e => .error e
      | .ok (name, p) =>
        match p.parseDirectives with
        | .error e => .error e
        | .ok (dirs, p) =>
          match (if p.curToken.type = .EQUALS then p.parseUnionMemberTypes else .ok ([], p)) with
          | .error e => .error e
          | .ok (types, p) =>
            if dirs.isEmpty && types.isEmpty then
              .error ("unexpected: " ++ strOfCodes p.curToken.literal)
            else
              .ok (.unionTypeExt { position := pos, name := name,
                                   directives := dirs, types := types }, p)

/-- Go `parseEnumTypeExtension`. -/
def Parser.parseEnumTypeExtension (p : Parser) : PRes Definition :=
  let pos := p.curToken.start
  match p.expectLiteralAndAdvance (codes ("extend")) with
  | .error e => .error e
  | .ok (_, p) =>
    match p.expectLiteralAndAdvance (codes ("enum")) with
    | .error e => .error e
    | .ok (_, p) =>
      match p.parseName with
      | .error e => .error e
      | .ok (name, p) =>
        match p.parseDirectives with
        | .error e => .error e
        | .ok (dirs, p) =>
          match (if p.curToken.type = .LBRACE then p.parseEnumValuesDefinition else .ok ([], p)) with
          | .error e => .error e
          | .ok (vals, p) =>
            .ok (.enumTypeExt { position := pos, name := name,
                                directives := dirs, values := vals }, p)

/-- Go `parseInputObjectTypeExtension`. -/
def Parser.parseInputObjectTypeExtension (p : Parser) : PRes Definition :=
  let pos := p.curToken.start
  match p.expectLiteralAndAdvance (codes ("extend")) with
  | .error e => .error e
  | .ok (_, p) =>
    match p.expectLiteralAndAdvance (codes ("input")) with
    | .error e => .error e
    | .ok (_, p) =>
      match p.parseName with
      | .error e => .error e
      | .ok (name, p) =>
        match p.parseDirectives with
        | .error e => .error e
        | .ok (dirs, p) =>
          match (if p.curToken.type = .LBRACE then p.parseInputFieldsDefinition else .ok ([], p)) with
          | .error e => .error e
          | .ok (fields, p) =>
            .ok (.inputObjectTypeExt { position := pos, name := name,
                                       directives := dirs, fields := fields }, p)

/-- Go `parseTypeSystemExtension`: dispatch on the peek literal. -/
def Parser.parseTypeSystemExtension (p : Parser) : PRes Definition :=
  if p.peekToken.literal = codes ("schema") then p.parseSchemaExtension
  else if p.peekToken.literal = codes ("scalar") then p.parseScalarTypeExtension
  else if p.peekToken.literal = codes ("type") then p.parseObjectTypeExtension
  else if p.peekToken.literal = codes ("interface") then p.parseInterfaceTypeExtension
  else if p.peekToken.literal = codes ("union") then p.parseUnionTypeExtension
  else if p.peekToken.literal = codes ("enum") then p.parseEnumTypeExtension
  else if p.peekToken.literal = codes ("input") then p.parseInputObjectTypeExtension
  else .error ("unexpected extension: " ++ strOfCodes p.peekToken.literal)

/-! ### top-level dispatch -/

/-- Go `parseDefinition`.  The anonymous-operation branch tests
`p.peekToken.Type == token.LBRACE` in the source — the peek token, not the
current one — and this definition mirrors that verbatim. -/
def Parser.parseDefinition (p : Parser) : PRes Definition :=
  if p.peekToken.type = .LBRACE then
    match p.parseAnonymousOperationDefinition with
    | .error e => .error e
    | .ok (d, p) => .ok (.operationDef d, p)
  else
    let tok := if isDescription p.curToken.type then p.peekToken else p.curToken
    if tok.type = .NAME then
      if tok.literal = codes ("schema") then p.parseSchemaDefinition
      else if tok.literal = codes ("scalar") then p.parseScalarTypeDefinition
      else if tok.literal = codes ("type") then p.parseObjectTypeDefinition
      else if tok.literal = codes ("interface") then p.parseInterfaceTypeDefinition
      else if tok.literal = codes ("union") then p.parseUnionTypeDefinition
      else if tok.literal = codes ("enum") then p.parseEnumTypeDefinition
      else if tok.literal = codes ("input") then p.parseInputObjectTypeDefinition
      else if tok.literal = codes ("directive") then p.parseDirectiveDefinition
      else if tok.literal = codes ("query") ∨ tok.literal = codes ("mutation")
              ∨ tok.literal = codes ("subscription") then
        match p.parseOperationDefinition with
        | .error e => .error e
        | .ok (d, p) => .ok (.operationDef d, p)
      else if tok.literal = codes ("fragment") then
        match p.parseFragmentDefinition with
        | .error e => .error e
        | .ok (d, p) => .ok (.fragmentDef d, p)
      else if tok.literal = codes ("extend") then p.parseTypeSystemExtension
      else .error ("unexpected keyword " ++ strOfCodes p.curToken.literal)
    else .error ("unexpected keyword " ++ strOfCodes p.curToken.literal)

/-- The definition loop of `ParseDocument`. -/
def parseDocumentLoop : Nat → List Definition → Parser → Except String Document
  | 0, _, _ => .error fuelParseError
  | fuel + 1, acc, p =>
    if p.curToken.type ≠ .EOF then
      match p.parseDefinition with
      | .error e => .error e
      | .ok (d, p) => parseDocumentLoop fuel (acc ++ [d]) p
    else .ok { definitions := acc }

/-- Go `ParseDocument` over an already-lexed token list. -/
def parseDocument (toks : List Token) : Except String Document :=
  parseDocumentLoop (8 * toks.length + 64) [] (mkParser toks)

/-- A lexer or parser error, as surfaced by `ParseDocument`. -/
inductive Err where
  | lexErr (e : LexError)
  | parseErr (msg : String)
  deriving DecidableEq, Repr

/-- Lex then parse a whole source text. -/
def parseDocumentStr (s : String) : Except Err Document :=
  match lexAll (codes s) with
  | .error e => .error (.lexErr e)
  | .ok toks =>
    match parseDocument toks with
    | .error m => .error (.parseErr m)
    | .ok d => .ok d

/-- Go `true` exactly on the error case. -/
def isErr {ε α : Type} : Except ε α → Bool
  | .error _ => true
  | .ok _ => false

/-! ## The non-null nesting invariant

`ast.Type` values occur in the AST only as `VariableDefinition.Type`,
`FieldDefinition.Type` and `InputValueDefinition.Type` (and inside other
types); the predicates below say that nowhere in such a type does a
`NonNullType` directly wrap another `NonNullType`. -/

/-- The type is not itself a `NonNullType` node. -/
def notNonNull : Typ → Bool
  | .nonNull _ _ => false
  | _ => true

/-- No `NonNullType` anywhere in the type wraps another `NonNullType`. -/
def TypeOK : Typ → Bool
  | .named _ => true
  | .list _ t => TypeOK t
  | .nonNull _ t => notNonNull t && TypeOK t

def VarDefOK (v : VariableDefinition) : Bool := TypeOK v.type

def InputValueDefOK (i : InputValueDefinition) : Bool := TypeOK i.type

def FieldDefOK (f : FieldDefinition) : Bool :=
  TypeOK f.type && f.arguments.all InputValueDefOK

/-- Every type stored in the definition satisfies `TypeOK`.  The
constructors collapsed by the catch-all
(fragment/schema/scalar/union/enum definitions and extensions) contain no
`ast.Type` fields at all. -/
def DefOK : Definition → Bool
  | .operationDef d => d.variableDefs.all VarDefOK
  | .objectTypeDef d => d.fields.all FieldDefOK
  | .interfaceTypeDef d => d.fields.all FieldDefOK
  | .inputObjectTypeDef d => d.fields.all InputValueDefOK
  | .directiveDef d => d.arguments.all InputValueDefOK
  | .objectTypeExt d => d.fields.all FieldDefOK
  | .interfaceTypeExt d => d.fields.all FieldDefOK
  | .inputObjectTypeExt d => d.fields.all InputValueDefOK
  | _ => true

def DocOK (d : Document) : Bool := d.definitions.all DefOK

/-- The named-or-list part of `parseType` yields only `TypeOK` types that
are themselves not `NonNullType` nodes, provided the recursive call
does. -/
theorem parseTypeInnerGo_ok (recur : Parser → PRes Typ)
    (ih : ∀ (q q2 : Parser) (t : Typ), recur q = .ok (t, q2) → TypeOK t = true)
    (p q : Parser) (typ : Typ)
    (hq : parseTypeInnerGo recur p = .ok (typ, q)) :
    TypeOK typ = true ∧ notNonNull typ = true := by
  rw [parseTypeInnerGo] at hq
  by_cases h1 : p.curToken.type = .LBRACK
  · simp only [h1, if_true] at hq
    cases hrec : recur p.next with
    | error e => simp [hrec] at hq
    | ok ip =>
      obtain ⟨innerType, p3⟩ := ip
      simp only [hrec] at hq
      cases hexp : p3.expectAndAdvance .RBRACK with
      | error e => simp [hexp] at hq
      | ok up =>
        obtain ⟨u, p4⟩ := up
        simp only [hexp, Except.ok.injEq, Prod.mk.injEq] at hq
        obtain ⟨hty, hqq⟩ := hq
        subst hty
        exact ⟨by simpa [TypeOK] using ih _ _ _ hrec, by simp [notNonNull]⟩
  · simp only [h1, if_false] at hq
    by_cases h2 : p.curToken.type = .NAME
    · simp only [h2, if_true] at hq
      cases hnt : p.parseNamedType with
      | error e => simp [hnt] at hq
      | ok np =>
        obtain ⟨nt, p3⟩ := np
        simp only [hnt, Except.ok.injEq, Prod.mk.injEq] at hq
        obtain ⟨hty, hqq⟩ := hq
        subst hty
        exact ⟨by simp [TypeOK], by simp [notNonNull]⟩
    · simp only [h2, if_false] at hq
      exact absurd hq (by simp)

/-- Go `parseType` only ever wraps the named or list type it just built in a
`NonNullType`, so its results never nest non-null nodes. -/
theorem parseTypeF_TypeOK : ∀ (fuel : Nat) (p p2 : Parser) (t : Typ),
    parseTypeF fuel p = .ok (t, p2) → TypeOK t = true := by
  intro fuel
  induction fuel with
  | zero => intro p p2 t h; simp [parseTypeF] at h
  | succ fuel ih =>
    intro p p2 t h
    rw [parseTypeF] at h
    cases hinner : parseTypeInnerGo (parseTypeF fuel) p with
    | error e => simp only [hinner] at h; exact absurd h (by simp)
    | ok tp =>
      obtain ⟨typ, q⟩ := tp
      obtain ⟨hTypOK, hNN⟩ := parseTypeInnerGo_ok (parseTypeF fuel) ih p q typ hinner
      simp only [hinner] at h
      by_cases hbang : q.curToken.type = .BANG
      · simp only [hbang, if_true, Except.ok.injEq, Prod.mk.injEq] at h
        obtain ⟨hty, _⟩ := h
        subst hty
        simp [TypeOK, hTypOK, hNN]
      · simp only [hbang, if_false, Except.ok.injEq, Prod.mk.injEq] at h
        obtain ⟨hty, _⟩ := h
        subst hty
        exact hTypOK

/-- The `parseType` wrapper inherits the invariant. -/
theorem parseType_TypeOK (p p2 : Parser) (t : Typ)
    (h : p.parseType = .ok (t, p2)) : TypeOK t = true :=
  parseTypeF_TypeOK _ _ _ _ h
/-- Go `parseVariableDefinition` only builds types through `parseType`. -/
theorem parseVariableDefinition_ok : ∀ (p p2 : Parser) (v : VariableDefinition),
    p.parseVariableDefinition = .ok (v, p2) → VarDefOK v = true := by
  intro p p2 v h
  simp only [Parser.parseVariableDefinition] at h
  repeat (any_goals split at h)
  all_goals simp at h
  obtain ⟨hv, hp⟩ := h
  subst hv
  simp only [VarDefOK]
  exact parseType_TypeOK _ _ _ (by assumption)

theorem parseVariableDefinitionsLoop_ok : ∀ (fuel : Nat) (acc : List VariableDefinition)
    (p p2 : Parser) (res : List VariableDefinition),
    parseVariableDefinitionsLoop fuel acc p = .ok (res, p2) →
    acc.all VarDefOK = true → res.all VarDefOK = true := by
  intro fuel
  induction fuel with
  | zero => intro acc p p2 res h _; simp [parseVariableDefinitionsLoop] at h
  | succ fuel ih =>
    intro acc p p2 res h hacc
    simp only [parseVariableDefinitionsLoop] at h
    split at h
    · cases hd : p.parseVariableDefinition with
      | error e => simp [hd] at h
      | ok dp =>
        obtain ⟨d, q⟩ := dp
        simp only [hd] at h
        refine ih _ _ _ _ h ?_
        have hdok := parseVariableDefinition_ok _ _ _ hd
        simp [List.all_append, hacc, hdok]
    · cases hexp : p.expectAndAdvance .RPAREN with
      | error e => simp [hexp] at h
      | ok up =>
        obtain ⟨u, q⟩ := up
        simp only [hexp, Except.ok.injEq, Prod.mk.injEq] at h
        obtain ⟨hres, _⟩ := h
        subst hres
        exact hacc

theorem parseVariableDefinitions_ok : ∀ (p p2 : Parser) (res : List VariableDefinition),
    p.parseVariableDefinitions = .ok (res, p2) → res.all VarDefOK = true := by
  intro p p2 res h
  simp only [Parser.parseVariableDefinitions] at h
  cases hexp : p.expectAndAdvance .LPAREN with
  | error e => simp [hexp] at h
  | ok up =>
    obtain ⟨u, q⟩ := up
    simp only [hexp] at h
    exact parseVariableDefinitionsLoop_ok _ _ _ _ _ h rfl

/-- The optional `( VariableDefinition+ )` block of an operation. -/
theorem varDefsOpt_ok (p q : Parser) (res : List VariableDefinition)
    (h : (if p.curToken.type = .LPAREN then p.parseVariableDefinitions else .ok ([], p))
          = .ok (res, q)) : res.all VarDefOK = true := by
  split at h
  · exact parseVariableDefinitions_ok _ _ _ h
  · simp only [Except.ok.injEq, Prod.mk.injEq] at h
    obtain ⟨hres, _⟩ := h
    subst hres
    rfl

/-- Go `parseInputValueDefinition` only builds types through `parseType`. -/
theorem parseInputValueDefinition_ok : ∀ (p p2 : Parser) (d : InputValueDefinition),
    p.parseInputValueDefinition = .ok (d, p2) → InputValueDefOK d = true := by
  intro p p2 d h
  simp only [Parser.parseInputValueDefinition] at h
  repeat (any_goals split at h)
  all_goals simp at h
  obtain ⟨hv, hp⟩ := h
  subst hv
  simp only [InputValueDefOK]
  exact parseType_TypeOK _ _ _ (by assumption)

theorem parseArgumentsDefinitionLoop_ok : ∀ (fuel : Nat) (acc : List InputValueDefinition)
    (p p2 : Parser) (res : List InputValueDefinition),
    parseArgumentsDefinitionLoop fuel acc p = .ok (res, p2) →
    acc.all InputValueDefOK = true → res.all InputValueDefOK = true := by
  intro fuel
  induction fuel with
  | zero => intro acc p p2 res h _; simp [parseArgumentsDefinitionLoop] at h
  | succ fuel ih =>
    intro acc p p2 res h hacc
    simp only [parseArgumentsDefinitionLoop] at h
    split at h
    · cases hd : p.parseInputValueDefinition with
      | error e => simp [hd] at h
      | ok dp =>
        obtain ⟨d, q⟩ := dp
        simp only [hd] at h
        refine ih _ _ _ _ h ?_
        have hdok := parseInputValueDefinition_ok _ _ _ hd
        simp [List.all_append, hacc, hdok]
    · cases hexp : p.expectAndAdvance .RPAREN with
      | error e => simp [hexp] at h
      | ok up =>
        obtain ⟨u, q⟩ := up
        simp only [hexp, Except.ok.injEq, Prod.mk.injEq] at h
        obtain ⟨hres, _⟩ := h
        subst hres
        exact hacc

theorem parseArgumentsDefinition_ok : ∀ (p p2 : Parser) (res : List InputValueDefinition),
    p.parseArgumentsDefinition = .ok (res, p2) → res.all InputValueDefOK = true := by
  intro p p2 res h
  simp only [Parser.parseArgumentsDefinition] at h
  cases hexp : p.expectAndAdvance .LPAREN with
  | error e => simp [hexp] at h
  | ok up =>
    obtain ⟨u, q⟩ := up
    simp only [hexp] at h
    exact parseArgumentsDefinitionLoop_ok _ _ _ _ _ h rfl

/-- The optional `ArgumentsDefinition` block of a field or directive
definition. -/
theorem argsDefOpt_ok (p q : Parser) (res : List InputValueDefinition)
    (h : (if p.curToken.type = .LPAREN then p.parseArgumentsDefinition else .ok ([], p))
          = .ok (res, q)) : res.all InputValueDefOK = true := by
  split at h
  · exact parseArgumentsDefinition_ok _ _ _ h
  · simp only [Except.ok.injEq, Prod.mk.injEq] at h
    obtain ⟨hres, _⟩ := h
    subst hres
    rfl

theorem parseInputFieldsDefinitionLoop_ok : ∀ (fuel : Nat) (acc : List InputValueDefinition)
    (p p2 : Parser) (res : List InputValueDefinition),
    parseInputFieldsDefinitionLoop fuel acc p = .ok (res, p2) →
    acc.all InputValueDefOK = true → res.all InputValueDefOK = true := by
  intro fuel
  induction fuel with
  | zero => intro acc p p2 res h _; simp [parseInputFieldsDefinitionLoop] at h
  | succ fuel ih =>
    intro acc p p2 res h hacc
    simp only [parseInputFieldsDefinitionLoop] at h
    split at h
    · cases hd : p.parseInputValueDefinition with
      | error e => simp [hd] at h
      | ok dp =>
        obtain ⟨d, q⟩ := dp
        simp only [hd] at h
        refine ih _ _ _ _ h ?_
        have hdok := parseInputValueDefinition_ok _ _ _ hd
        simp [List.all_append, hacc, hdok]
    · cases hexp : p.expectAndAdvance .RBRACE with
      | error e => simp [hexp] at h
      | ok up =>
        obtain ⟨u, q⟩ := up
        simp only [hexp, Except.ok.injEq, Prod.mk.injEq] at h
        obtain ⟨hres, _⟩ := h
        subst hres
        exact hacc

theorem parseInputFieldsDefinition_ok : ∀ (p p2 : Parser) (res : List InputValueDefinition),
    p.parseInputFieldsDefinition = .ok (res, p2) → res.all InputValueDefOK = true := by
  intro p p2 res h
  simp only [Parser.parseInputFieldsDefinition] at h
  cases hexp : p.expectAndAdvance .LBRACE with
  | error e => simp [hexp] at h
  | ok up =>
    obtain ⟨u, q⟩ := up
    simp only [hexp] at h
    exact parseInputFieldsDefinitionLoop_ok _ _ _ _ _ h rfl

/-- The optional `InputFieldsDefinition` block. -/
theorem inputFieldsOpt_ok (p q : Parser) (res : List InputValueDefinition)
    (h : (if p.curToken.type = .LBRACE then p.parseInputFieldsDefinition else .ok ([], p))
          = .ok (res, q)) : res.all InputValueDefOK = true := by
  split at h
  · exact parseInputFieldsDefinition_ok _ _ _ h
  · simp only [Except.ok.injEq, Prod.mk.injEq] at h
    obtain ⟨hres, _⟩ := h
    subst hres
    rfl

/-- Go `parseFieldDefinition`: the field type comes from `parseType` and the
argument types from `parseArgumentsDefinition`. -/
theorem parseFieldDefinition_ok : ∀ (p p2 : Parser) (d : FieldDefinition),
    p.parseFieldDefinition = .ok (d, p2) → FieldDefOK d = true := by
  intro p p2 d h
  simp only [Parser.parseFieldDefinition] at h
  repeat (any_goals split at h)
  all_goals simp at h
  obtain ⟨hv, hp⟩ := h
  subst hv
  simp only [FieldDefOK]
  rw [Bool.and_eq_true]
  constructor
  · exact parseType_TypeOK _ _ _ (by assumption)
  · exact argsDefOpt_ok _ _ _ (by assumption)

theorem parseFieldsDefinitionLoop_ok : ∀ (fuel : Nat) (acc : List FieldDefinition)
    (p p2 : Parser) (res : List FieldDefinition),
    parseFieldsDefinitionLoop fuel acc p = .ok (res, p2) →
    acc.all FieldDefOK = true → res.all FieldDefOK = true := by
  intro fuel
  induction fuel with
  | zero => intro acc p p2 res h _; simp [parseFieldsDefinitionLoop] at h
  | succ fuel ih =>
    intro acc p p2 res h hacc
    simp only [parseFieldsDefinitionLoop] at h
    split at h
    · cases hd : p.parseFieldDefinition with
      | error e => simp [hd] at h
      | ok dp =>
        obtain ⟨d, q⟩ := dp
        simp only [hd] at h
        refine ih _ _ _ _ h ?_
        have hdok := parseFieldDefinition_ok _ _ _ hd
        simp [List.all_append, hacc, hdok]
    · cases hexp : p.expectAndAdvance .RBRACE with
      | error e => simp [hexp] at h
      | ok up =>
        obtain ⟨u, q⟩ := up
        simp only [hexp, Except.ok.injEq, Prod.mk.injEq] at h
        obtain ⟨hres, _⟩ := h
        subst hres
        exact hacc

theorem parseFieldsDefinition_ok : ∀ (p p2 : Parser) (res : List FieldDefinition),
    p.parseFieldsDefinition = .ok (res, p2) → res.all FieldDefOK = true := by
  intro p p2 res h
  simp only [Parser.parseFieldsDefinition] at h
  cases hexp : p.expectAndAdvance .LBRACE with
  | error e => simp [hexp] at h
  | ok up =>
    obtain ⟨u, q⟩ := up
    simp only [hexp] at h
    exact parseFieldsDefinitionLoop_ok _ _ _ _ _ h rfl

/-- The optional `FieldsDefinition` block. -/
theorem fieldsDefOpt_ok (p q : Parser) (res : List FieldDefinition)
    (h : (if p.curToken.type = .LBRACE then p.parseFieldsDefinition else .ok ([], p))
          = .ok (res, q)) : res.all FieldDefOK = true := by
  split at h
  · exact parseFieldsDefinition_ok _ _ _ h
  · simp only [Except.ok.injEq, Prod.mk.injEq] at h
    obtain ⟨hres, _⟩ := h
    subst hres
    rfl
theorem parseOperationDefinition_ok : ∀ (p p2 : Parser) (d : OperationDefinition),
    p.parseOperationDefinition = .ok (d, p2) → d.variableDefs.all VarDefOK = true := by
  intro p p2 d h
  simp only [Parser.parseOperationDefinition] at h
  repeat (any_goals split at h)
  all_goals simp at h
  obtain ⟨hv, hp⟩ := h
  subst hv
  exact varDefsOpt_ok _ _ _ (by assumption)

theorem parseAnonymousOperationDefinition_ok : ∀ (p p2 : Parser) (d : OperationDefinition),
    p.parseAnonymousOperationDefinition = .ok (d, p2) → d.variableDefs.all VarDefOK = true := by
  intro p p2 d h
  simp only [Parser.parseAnonymousOperationDefinition] at h
  repeat (any_goals split at h)
  all_goals simp at h
  obtain ⟨hv, hp⟩ := h
  subst hv
  rfl

theorem parseSchemaDefinition_DefOK : ∀ (p p2 : Parser) (d : Definition),
    p.parseSchemaDefinition = .ok (d, p2) → DefOK d = true := by
  intro p p2 d h
  simp only [Parser.parseSchemaDefinition] at h
  repeat (any_goals split at h)
  all_goals simp at h
  all_goals (obtain ⟨hv, hp⟩ := h; subst hv; simp [DefOK])

theorem parseScalarTypeDefinition_DefOK : ∀ (p p2 : Parser) (d : Definition),
    p.parseScalarTypeDefinition = .ok (d, p2) → DefOK d = true := by
  intro p p2 d h
  simp only [Parser.parseScalarTypeDefinition] at h
  repeat (any_goals split at h)
  all_goals simp at h
  all_goals (obtain ⟨hv, hp⟩ := h; subst hv; simp [DefOK])

theorem parseObjectTypeDefinition_DefOK : ∀ (p p2 : Parser) (d : Definition),
    p.parseObjectTypeDefinition = .ok (d, p2) → DefOK d = true := by
  intro p p2 d h
  simp only [Parser.parseObjectTypeDefinition] at h
  repeat (any_goals split at h)
  all_goals simp at h
  obtain ⟨hv, hp⟩ := h
  subst hv
  simp only [DefOK]
  exact fieldsDefOpt_ok _ _ _ (by assumption)

theorem parseInterfaceTypeDefinition_DefOK : ∀ (p p2 : Parser) (d : Definition),
    p.parseInterfaceTypeDefinition = .ok (d, p2) → DefOK d = true := by
  intro p p2 d h
  simp only [Parser.parseInterfaceTypeDefinition] at h
  repeat (any_goals split at h)
  all_goals simp at h
  obtain ⟨hv, hp⟩ := h
  subst hv
  simp only [DefOK]
  exact fieldsDefOpt_ok _ _ _ (by assumption)

theorem parseUnionTypeDefinition_DefOK : ∀ (p p2 : Parser) (d : Definition),
    p.parseUnionTypeDefinition = .ok (d, p2) → DefOK d = true := by
  intro p p2 d h
  simp only [Parser.parseUnionTypeDefinition] at h
  repeat (any_goals split at h)
  all_goals simp at h
  all_goals (obtain ⟨hv, hp⟩ := h; subst hv; simp [DefOK])

theorem parseEnumTypeDefinition_DefOK : ∀ (p p2 : Parser) (d : Definition),
    p.parseEnumTypeDefinition = .ok (d, p2) → DefOK d = true := by
  intro p p2 d h
  simp only [Parser.parseEnumTypeDefinition] at h
  repeat (any_goals split at h)
  all_goals simp at h
  all_goals (obtain ⟨hv, hp⟩ := h; subst hv; simp [DefOK])

theorem parseInputObjectTypeDefinition_DefOK : ∀ (p p2 : Parser) (d : Definition),
    p.parseInputObjectTypeDefinition = .ok (d, p2) → DefOK d = true := by
  intro p p2 d h
  simp only [Parser.parseInputObjectTypeDefinition] at h
  repeat (any_goals split at h)
  all_goals simp at h
  obtain ⟨hv, hp⟩ := h
  subst hv
  simp only [DefOK]
  exact inputFieldsOpt_ok _ _ _ (by assumption)

theorem parseDirectiveDefinition_DefOK : ∀ (p p2 : Parser) (d : Definition),
    p.parseDirectiveDefinition = .ok (d, p2) → DefOK d = true := by
  intro p p2 d h
  simp only [Parser.parseDirectiveDefinition] at h
  repeat (any_goals split at h)
  all_goals simp at h
  all_goals (obtain ⟨hv, hp⟩ := h; subst hv; simp only [DefOK];
             exact argsDefOpt_ok _ _ _ (by assumption))

theorem parseFragmentDefinition_ok : ∀ (p p2 : Parser) (d : FragmentDefinition),
    p.parseFragmentDefinition = .ok (d, p2) → DefOK (.fragmentDef d) = true := by
  intro p p2 d h
  simp [DefOK]

theorem parseSchemaExtension_DefOK : ∀ (p p2 : Parser) (d : Definition),
    p.parseSchemaExtension = .ok (d, p2) → DefOK d = true := by
  intro p p2 d h
  simp only [Parser.parseSchemaExtension] at h
  repeat (any_goals split at h)
  all_goals simp at h
  all_goals (obtain ⟨hv, hp⟩ := h; subst hv; simp [DefOK])

theorem parseScalarTypeExtension_DefOK : ∀ (p p2 : Parser) (d : Definition),
    p.parseScalarTypeExtension = .ok (d, p2) → DefOK d = true := by
  intro p p2 d h
  simp only [Parser.parseScalarTypeExtension] at h
  repeat (any_goals split at h)
  all_goals simp at h
  all_goals (obtain ⟨hv, hp⟩ := h; subst hv; simp [DefOK])

theorem parseObjectTypeExtension_DefOK : ∀ (p p2 : Parser) (d : Definition),
    p.parseObjectTypeExtension = .ok (d, p2) → DefOK d = true := by
  intro p p2 d h
  simp only [Parser.parseObjectTypeExtension] at h
  repeat (any_goals split at h)
  all_goals simp at h
  obtain ⟨hv, hp⟩ := h
  subst hv
  simp only [DefOK]
  exact fieldsDefOpt_ok _ _ _ (by assumption)

theorem parseInterfaceTypeExtension_DefOK : ∀ (p p2 : Parser) (d : Definition),
    p.parseInterfaceTypeExtension = .ok (d, p2) → DefOK d = true := by
  intro p p2 d h
  simp only [Parser.parseInterfaceTypeExtension] at h
  repeat (any_goals split at h)
  all_goals simp at h
  obtain ⟨hv, hp⟩ := h
  subst hv
  simp only [DefOK]
  exact fieldsDefOpt_ok _ _ _ (by assumption)

theorem parseUnionTypeExtension_DefOK : ∀ (p p2 : Parser) (d : Definition),
    p.parseUnionTypeExtension = .ok (d, p2) → DefOK d = true := by
  intro p p2 d h
  simp only [Parser.parseUnionTypeExtension] at h
  repeat (any_goals split at h)
  all_goals simp at h
  all_goals (obtain ⟨hv, hp⟩ := h; subst hv; simp [DefOK])

theorem parseEnumTypeExtension_DefOK : ∀ (p p2 : Parser) (d : Definition),
    p.parseEnumTypeExtension = .ok (d, p2) → DefOK d = true := by
  intro p p2 d h
  simp only [Parser.parseEnumTypeExtension] at h
  repeat (any_goals split at h)
  all_goals simp at h
  all_goals (obtain ⟨hv, hp⟩ := h; subst hv; simp [DefOK])

theorem parseInputObjectTypeExtension_DefOK : ∀ (p p2 : Parser) (d : Definition),
    p.parseInputObjectTypeExtension = .ok (d, p2) → DefOK d = true := by
  intro p p2 d h
  simp only [Parser.parseInputObjectTypeExtension] at h
  repeat (any_goals split at h)
  all_goals simp at h
  obtain ⟨hv, hp⟩ := h
  subst hv
  simp only [DefOK]
  exact inputFieldsOpt_ok _ _ _ (by assumption)

theorem parseTypeSystemExtension_DefOK : ∀ (p p2 : Parser) (d : Definition),
    p.parseTypeSystemExtension = .ok (d, p2) → DefOK d = true := by
  intro p p2 d h
  simp only [Parser.parseTypeSystemExtension] at h
  repeat (any_goals split at h)
  all_goals first
    | exact parseSchemaExtension_DefOK _ _ _ h
    | exact parseScalarTypeExtension_DefOK _ _ _ h
    | exact parseObjectTypeExtension_DefOK _ _ _ h
    | exact parseInterfaceTypeExtension_DefOK _ _ _ h
    | exact parseUnionTypeExtension_DefOK _ _ _ h
    | exact parseEnumTypeExtension_DefOK _ _ _ h
    | exact parseInputObjectTypeExtension_DefOK _ _ _ h
    | simp at h
/-- Every definition `parseDefinition` returns satisfies `DefOK`. -/
theorem parseDefinition_DefOK : ∀ (p p2 : Parser) (d : Definition),
    p.parseDefinition = .ok (d, p2) → DefOK d = true := by
  intro p p2 d h
  simp only [Parser.parseDefinition] at h
  by_cases h0 : p.peekToken.type = .LBRACE
  · rw [if_pos h0] at h
    cases ha : p.parseAnonymousOperationDefinition with
    | error e => rw [ha] at h; exact absurd h (by simp)
    | ok dp =>
      obtain ⟨d1, q⟩ := dp
      rw [ha] at h
      simp only [Except.ok.injEq, Prod.mk.injEq] at h
      obtain ⟨hv, _⟩ := h
      subst hv
      simp only [DefOK]
      exact parseAnonymousOperationDefinition_ok _ _ _ ha
  · rw [if_neg h0] at h
    generalize htok : (if isDescription p.curToken.type = true then p.peekToken else p.curToken) = tok at h
    by_cases h1 : tok.type = .NAME
    · rw [if_pos h1] at h
      by_cases h2 : tok.literal = codes ("schema")
      · rw [if_pos h2] at h; exact parseSchemaDefinition_DefOK _ _ _ h
      · rw [if_neg h2] at h
        by_cases h3 : tok.literal = codes ("scalar")
        · rw [if_pos h3] at h; exact parseScalarTypeDefinition_DefOK _ _ _ h
        · rw [if_neg h3] at h
          by_cases h4 : tok.literal = codes ("type")
          · rw [if_pos h4] at h; exact parseObjectTypeDefinition_DefOK _ _ _ h
          · rw [if_neg h4] at h
            by_cases h5 : tok.literal = codes ("interface")
            · rw [if_pos h5] at h; exact parseInterfaceTypeDefinition_DefOK _ _ _ h
            · rw [if_neg h5] at h
              by_cases h6 : tok.literal = codes ("union")
              · rw [if_pos h6] at h; exact parseUnionTypeDefinition_DefOK _ _ _ h
              · rw [if_neg h6] at h
                by_cases h7 : tok.literal = codes ("enum")
                · rw [if_pos h7] at h; exact parseEnumTypeDefinition_DefOK _ _ _ h
                · rw [if_neg h7] at h
                  by_cases h8 : tok.literal = codes ("input")
                  · rw [if_pos h8] at h; exact parseInputObjectTypeDefinition_DefOK _ _ _ h
                  · rw [if_neg h8] at h
                    by_cases h9 : tok.literal = codes ("directive")
                    · rw [if_pos h9] at h; exact parseDirectiveDefinition_DefOK _ _ _ h
                    · rw [if_neg h9] at h
                      by_cases h10 : tok.literal = codes ("query") ∨ tok.literal = codes ("mutation")
                          ∨ tok.literal = codes ("subscription")
                      · rw [if_pos h10] at h
                        cases ho : p.parseOperationDefinition with
                        | error e => rw [ho] at h; exact absurd h (by simp)
                        | ok dp =>
                          obtain ⟨d1, q⟩ := dp
                          rw [ho] at h
                          simp only [Except.ok.injEq, Prod.mk.injEq] at h
                          obtain ⟨hv, _⟩ := h
                          subst hv
                          simp only [DefOK]
                          exact parseOperationDefinition_ok _ _ _ ho
                      · rw [if_neg h10] at h
                        by_cases h11 : tok.literal = codes ("fragment")
                        · rw [if_pos h11] at h
                          cases hf : p.parseFragmentDefinition with
                          | error e => rw [hf] at h; exact absurd h (by simp)
                          | ok dp =>
                            obtain ⟨d1, q⟩ := dp
                            rw [hf] at h
                            simp only [Except.ok.injEq, Prod.mk.injEq] at h
                            obtain ⟨hv, _⟩ := h
                            subst hv
                            simp [DefOK]
                        · rw [if_neg h11] at h
                          by_cases h12 : tok.literal = codes ("extend")
                          · rw [if_pos h12] at h; exact parseTypeSystemExtension_DefOK _ _ _ h
                          · rw [if_neg h12] at h; exact absurd h (by simp)
    · rw [if_neg h1] at h
      exact absurd h (by simp)

/-- The `ParseDocument` loop preserves the invariant. -/
theorem parseDocumentLoop_DocOK : ∀ (fuel : Nat) (acc : List Definition) (p : Parser)
    (doc : Document), parseDocumentLoop fuel acc p = .ok doc →
    acc.all DefOK = true → DocOK doc = true := by
  intro fuel
  induction fuel with
  | zero => intro acc p doc h _; simp [parseDocumentLoop] at h
  | succ fuel ih =>
    intro acc p doc h hacc
    simp only [parseDocumentLoop] at h
    split at h
    · cases hd : p.parseDefinition with
      | error e => simp [hd] at h
      | ok dp =>
        obtain ⟨d, q⟩ := dp
        simp only [hd] at h
        refine ih _ _ _ h ?_
        have hdok := parseDefinition_DefOK _ _ _ hd
        simp [List.all_append, hacc, hdok]
    · simp only [Except.ok.injEq] at h
      subst h
      exact hacc

/-- No document produced by `ParseDocument` contains a `NonNullType`
directly wrapping another `NonNullType`. -/
theorem parseDocument_DocOK (toks : List Token) (doc : Document)
    (h : parseDocument toks = .ok doc) : DocOK doc = true :=
  parseDocumentLoop_DocOK _ _ _ _ h rfl

/-- The same invariant for the string entry point. -/
theorem parseDocumentStr_DocOK (s : String) (doc : Document)
    (h : parseDocumentStr s = .ok doc) : DocOK doc = true := by
  unfold parseDocumentStr at h
  cases hl : lexAll (codes s) with
  | error e => simp [hl] at h
  | ok toks =>
    simp only [hl] at h
    cases hp : parseDocument toks with
    | error m => simp [hp] at h
    | ok d =>
      simp only [hp, Except.ok.injEq] at h
      subst h
      exact parseDocument_DocOK _ _ hp
/-! ## Supporting lemmas for the selection-set and pipe claims -/

/-- Go `parseSelectionSet` on `{` directly followed by `}` succeeds with zero
selections: the loop body runs only while the current token is neither `}`
nor EOF. -/
theorem parseSelectionSetF_empty (fuel : Nat) (p : Parser)
    (h1 : p.curToken.type = .LBRACE) (h2 : p.peekToken.type = .RBRACE) :
    parseSelectionSetF (fuel + 2) p = .ok (.mk p.curToken.start [], p.next.next) := by
  have hfuel : fuel + 2 = (fuel + 1) + 1 := rfl
  rw [hfuel]
  simp only [parseSelectionSetF]
  have hexp : p.expectAndAdvance .LBRACE = .ok ((), p.next) := by
    simp [Parser.expectAndAdvance, h1]
  simp only [hexp]
  simp only [parseSelectionsLoop]
  have hcur : (p.next).curToken.type = .RBRACE := h2
  have hexp2 : (p.next).expectAndAdvance .RBRACE = .ok ((), p.next.next) := by
    simp [Parser.expectAndAdvance, hcur]
  simp [hcur, hexp2]

/-- Go `parseSelectionSet` (and with it the anonymous-operation branch) fails
whenever the current token is not `{`. -/
theorem parseSelectionSetF_not_lbrace (fuel : Nat) (p : Parser)
    (h : p.curToken.type ≠ .LBRACE) :
    isErr (parseSelectionSetF fuel p) = true := by
  cases fuel with
  | zero => rfl
  | succ fuel =>
    simp only [parseSelectionSetF]
    have hexp : p.expectAndAdvance .LBRACE
        = .error ("expected " ++ TokenType.str .LBRACE ++ ", got " ++ p.curToken.type.str) := by
      simp [Parser.expectAndAdvance, h]
    simp [hexp, isErr]

/-- The anonymous-operation parser can only succeed when the current token
is `{` (while `parseDefinition` routes to it on the peek token). -/
theorem parseAnonymousOperationDefinition_not_lbrace (p : Parser)
    (h : p.curToken.type ≠ .LBRACE) :
    isErr (p.parseAnonymousOperationDefinition) = true := by
  simp only [Parser.parseAnonymousOperationDefinition, Parser.parseSelectionSet]
  have := parseSelectionSetF_not_lbrace (parserFuel p) p h
  cases hss : parseSelectionSetF (parserFuel p) p with
  | error e => simp [isErr]
  | ok v => rw [hss] at this; simp [isErr] at this

/-- A `|` in place of a union member name is rejected by the member loop. -/
theorem parseUnionMemberTypesLoop_pipe (fuel : Nat) (acc : List NamedType) (q : Parser)
    (h : q.curToken.type = .PIPE) :
    isErr (parseUnionMemberTypesLoop fuel acc q) = true := by
  cases fuel with
  | zero => rfl
  | succ fuel =>
    simp only [parseUnionMemberTypesLoop]
    cases hn : q.parseNamedType with
    | error e => simp [isErr]
    | ok np =>
      exfalso
      simp [Parser.parseNamedType, Parser.parseName, Parser.expect, h] at hn

/-- A `|` directly after the `=` of a union makes `parseUnionMemberTypes`
fail: the first member must be a plain name. -/
theorem parseUnionMemberTypes_leading_pipe (p : Parser)
    (h1 : p.curToken.type = .EQUALS) (h2 : p.peekToken.type = .PIPE) :
    isErr (p.parseUnionMemberTypes) = true := by
  simp only [Parser.parseUnionMemberTypes]
  have hexp : p.expectAndAdvance .EQUALS = .ok ((), p.next) := by
    simp [Parser.expectAndAdvance, h1]
  simp only [hexp]
  exact parseUnionMemberTypesLoop_pipe _ _ _ h2

/-- A `|` in place of a directive location name is rejected by the
location loop. -/
theorem parseDirectiveLocationsLoop_pipe (fuel : Nat) (acc : List Name) (q : Parser)
    (h : q.curToken.type = .PIPE) :
    isErr (parseDirectiveLocationsLoop fuel acc q) = true := by
  cases fuel with
  | zero => rfl
  | succ fuel =>
    simp only [parseDirectiveLocationsLoop]
    cases hn : q.parseName with
    | error e => simp [isErr]
    | ok np =>
      exfalso
      simp [Parser.parseName, Parser.expect, h] at hn

/-- A `|` directly after `on` makes `parseDirectiveLocations` fail: the
first location must be a plain name. -/
theorem parseDirectiveLocations_leading_pipe (p : Parser)
    (h : p.curToken.type = .PIPE) :
    isErr (p.parseDirectiveLocations) = true := by
  simp only [Parser.parseDirectiveLocations]
  exact parseDirectiveLocationsLoop_pipe _ _ _ h
/-! ## Claim inputs and expected results -/

/-- The shorthand document of C1 (`{ a }`; braces written as escapes). -/
def inputC1 : String := "\x7b a \x7d"

/-- The empty-body operation of C2 (`query Q {}`). -/
def inputC2 : String := "query Q \x7b\x7d"

/-- What the parser actually produces for `query Q {}`: an
`OperationDefinition` whose selection set holds zero selections. -/
def docC2 : Document :=
  { definitions := [.operationDef
    { position := 0, operationType := codes ("query"),
      name := some { position := 6, value := codes ("Q") },
      variableDefs := [], directives := [], selectionSet := .mk 8 [] }] }

/-- The selection list of the first definition when it is an operation. -/
def firstOpSelections (d : Document) : Option (List Selection) :=
  match d.definitions with
  | .operationDef o :: _ => some o.selectionSet.selections
  | _ => none

/-- The schema-extension inputs of C3. -/
def inputC3a : String := "extend schema \x7b query: Q \x7d"

def inputC3b : String := "extend schema @foo"

/-- The bare object/interface type extensions of C4. -/
def inputC4a : String := "extend type Foo"

def inputC4b : String := "extend interface Foo"

/-- What the parser produces for `extend type Foo`: an
`ObjectTypeExtension` with no interfaces, no directives and no fields. -/
def docC4 : Document :=
  { definitions := [.objectTypeExt
    { position := 0, name := { position := 12, value := codes ("Foo") },
      interfaces := [], directives := [], fields := [] }] }

/-- The scalar-extension inputs of C5. -/
def inputC5a : String := "extend scalar Foo"

def inputC5b : String := "extend scalar Foo @bar"

/-- What the parser produces for `extend scalar Foo @bar`. -/
def docC5 : Document :=
  { definitions := [.scalarTypeExt
    { position := 0, name := { position := 14, value := codes ("Foo") },
      directives := [{ position := 18,
                       name := { position := 19, value := codes ("bar") },
                       arguments := [] }] }] }

/-- The kind and literal of the first token of a source text. -/
def lexOne (s : String) : Except LexError (TokenType × List Int) :=
  Except.map (fun tl => (tl.1.type, tl.1.literal)) ((mkLexer (codes s)).nextToken)

/-- The block-string source of C7: `"""`, LF, four spaces and
`A scalar.`, LF, `"""`. -/
def inputC7 : String := "\"\"\"\n    A scalar.\n\"\"\""

/-- The raw body the lexer collects for C7 before normalization. -/
def rawBodyC7 : List Int := codes ("\n    A scalar.\n")

/-- The surrogate-pair string literal of C8. -/
def inputC8a : String := "\"\\uD83D\\uDE00\""

/-- The braced-escape string literal of C8 (`"\u{1F600}"`). -/
def inputC8b : String := "\"\\u\x7b1F600\x7d\""

/-- The double-`!` operation of C9. -/
def inputC9bad : String := "query Q($v: Int!!) \x7b a \x7d"

/-- A well-typed document used to witness the C9 invariant:
`type T {f: Int!}`. -/
def inputC9good : String := "type T \x7bf: Int!\x7d"

/-- The parse of `inputC9good`. -/
def docC9 : Document :=
  { definitions := [.objectTypeDef
    { position := 0, description := none,
      name := ⟨5, codes ("T")⟩,
      interfaces := [], directives := [],
      fields := [{ position := 8, description := none,
                   name := ⟨8, codes ("f")⟩,
                   arguments := [],
                   type := .nonNull 14 (.named ⟨11, ⟨11, codes ("Int")⟩⟩),
                   directives := [] }] }] }

/-- The leading-pipe inputs of C10. -/
def inputC10a : String := "union U = | A | B"

def inputC10b : String := "directive @d on | X"

/-- Tokens used to witness the universally-quantified claims. -/
def lbraceTok : Token := { type := .LBRACE, literal := [], start := 0, endPos := 1 }

def rbraceTok : Token := { type := .RBRACE, literal := [], start := 1, endPos := 2 }

def equalsTok : Token := { type := .EQUALS, literal := [], start := 0, endPos := 1 }

def pipeTok : Token := { type := .PIPE, literal := [], start := 2, endPos := 3 }

def nameTok : Token := { type := .NAME, literal := codes ("a"), start := 0, endPos := 1 }

/-! ## Claims -/

/-- C1: the claim says parsing the shorthand document `{ a }` succeeds
with an anonymous query operation.  The code disagrees: `parseDefinition`
tests `peekToken` (not `curToken`) for `{`, so for `{ a }` (cur = `{`,
peek = `a`) the anonymous branch is skipped and the keyword switch fails
with `unexpected keyword `; moreover the anonymous branch itself only
succeeds when the current token is `{`, which the peek-based dispatch
never establishes, so it is dead code for successful parses.  This
theorem evaluates the code at the failing input and proves the dispatch
defect. -/
theorem claim_C1_shorthand_query_rejected :
    parseDocumentStr inputC1 = .error (.parseErr ("unexpected keyword "))
    ∧ ∀ p : Parser, p.curToken.type ≠ .LBRACE →
        isErr (p.parseAnonymousOperationDefinition) = true :=
  ⟨rfl, fun p h => parseAnonymousOperationDefinition_not_lbrace p h⟩

/-- Witness for C1: the second conjunct applied to a parser whose current
token is a name. -/
theorem claim_C1_witness :
    isErr ((mkParser [nameTok]).parseAnonymousOperationDefinition) = true :=
  claim_C1_shorthand_query_rejected.2 (mkParser [nameTok]) (by decide)

/-- C2 counterexample: the claim says `query Q {}` is a parse error and a
parsed document never holds an operation with zero selections.  In fact
the parse succeeds, and its single operation's selection set is empty. -/
theorem claim_C2_counterexample :
    parseDocumentStr inputC2 = .ok docC2 ∧ firstOpSelections docC2 = some [] :=
  ⟨rfl, rfl⟩

/-- C2 (amended): the parser accepts a lexical `{}`: `parseSelectionSet`
on `{` directly followed by `}` succeeds with zero selections, and
`query Q {}` parses into a document whose operation has an empty
selection set. -/
theorem claim_C2_empty_selection_set_accepted :
    (∀ (fuel : Nat) (p : Parser), p.curToken.type = .LBRACE →
      p.peekToken.type = .RBRACE →
      parseSelectionSetF (fuel + 2) p = .ok (.mk p.curToken.start [], p.next.next))
    ∧ parseDocumentStr inputC2 = .ok docC2 :=
  ⟨fun fuel p h1 h2 => parseSelectionSetF_empty fuel p h1 h2, rfl⟩

/-- Witness for C2: the universal conjunct applied to the token pair
`{` `}`. -/
theorem claim_C2_witness :
    parseSelectionSetF 2 (mkParser [lbraceTok, rbraceTok])
      = .ok (.mk 0 [], (mkParser [lbraceTok, rbraceTok]).next.next) :=
  claim_C2_empty_selection_set_accepted.1 0 (mkParser [lbraceTok, rbraceTok]) rfl rfl

/-- C3: the claim says `extend schema { query: Q }` parses into a
`SchemaExtension` with one root operation and `extend schema @foo` into
one with a single directive.  The code inverts the brace test in
`parseSchemaExtension` (`!=` instead of `==`), so the braced form leaves
`{ query: Q }` unconsumed (the top level then fails with `unexpected
keyword `) and the directive-only form walks past EOF looking for `}`. -/
theorem claim_C3_schema_extension_broken :
    parseDocumentStr inputC3a = .error (.parseErr ("unexpected keyword "))
    ∧ parseDocumentStr inputC3b = .error (.parseErr ("expected RBRACE, got EOF")) :=
  ⟨rfl, rfl⟩

/-- C4: the claim says `extend type Foo` (no implements clause, no
directives, no fields) is a parse error.  `parseObjectTypeExtension` has
no at-least-one-modification check (unlike its interface sibling, which
rejects the analogous `extend interface Foo`), so the parse succeeds with
an entirely empty `ObjectTypeExtension`. -/
theorem claim_C4_object_extension_unchecked :
    parseDocumentStr inputC4a = .ok docC4
    ∧ parseDocumentStr inputC4b = .error (.parseErr ("unexpected: ")) :=
  ⟨rfl, rfl⟩

/-- C5: `extend scalar Foo` fails with `directives required`, while
`extend scalar Foo @bar` succeeds carrying exactly the directive `bar`,
as the claim states. -/
theorem claim_C5_scalar_extension_requires_directive :
    parseDocumentStr inputC5a = .error (.parseErr ("directives required"))
    ∧ parseDocumentStr inputC5b = .ok docC5 :=
  ⟨rfl, rfl⟩

/-- C6: on the input `00`, `NextToken` returns a lexical error at line 1,
column 2 (the offending second digit) with message
`invalid number, unexpected digit after 0: '0'`, and no token. -/
theorem claim_C6_digit_after_zero :
    (mkLexer (codes ("00"))).nextToken
      = .error { line := 1, column := 2,
                 msg := "invalid number, unexpected digit after 0: " ++ sq ++ "0" ++ sq } :=
  rfl

/-- C7: lexing `"""` LF four-spaces `A scalar.` LF `"""` yields a
`BLOCK_STRING` token whose literal is exactly `A scalar.`; the common
indent computed over the non-first non-blank lines of the raw body is 4. -/
theorem claim_C7_block_string_normalization :
    lexOne inputC7 = .ok (.BLOCK_STRING, codes ("A scalar."))
    ∧ computeCommonIndent (splitLinesByLineTerminator rawBodyC7) = 4 :=
  ⟨rfl, rfl⟩

/-- C8: `"\uD83D\uDE00"` and `"\u{1F600}"` lex to `STRING` tokens with the
same literal, the single code point U+1F600, and the surrogate pair is
combined by `((hi − 0xD800) × 0x400) + (lo − 0xDC00) + 0x10000`. -/
theorem claim_C8_surrogate_equivalence :
    lexOne inputC8a = .ok (.STRING, [0x1F600])
    ∧ lexOne inputC8b = .ok (.STRING, [0x1F600])
    ∧ combineSurrogates 0xD83D 0xDE00 = 0x1F600 :=
  ⟨rfl, rfl, rfl⟩

/-- C9: for every input on which `parseDocumentStr` succeeds, the
resulting document contains no `NonNullType` whose wrapped type is itself
a `NonNullType`; and the double-`!` input `query Q($v: Int!!) { a }` is a
parse error. -/
theorem claim_C9_nonnull_never_nests :
    (∀ (s : String) (doc : Document), parseDocumentStr s = .ok doc → DocOK doc = true)
    ∧ isErr (parseDocumentStr inputC9bad) = true :=
  ⟨fun s doc h => parseDocumentStr_DocOK s doc h, rfl⟩

/-- Witness for C9: the invariant evaluated on the parse of
`query Q($v: Int!) { a }`. -/
theorem claim_C9_witness :
    parseDocumentStr inputC9good = .ok docC9 ∧ DocOK docC9 = true :=
  ⟨rfl, claim_C9_nonnull_never_nests.1 inputC9good docC9 rfl⟩

/-- C10: a leading `|` before the first item is rejected: whenever
`parseUnionMemberTypes` starts at `=` with `|` next, or
`parseDirectiveLocations` starts at `|`, the parse fails, and the concrete
documents `union U = | A | B` and `directive @d on | X` are parse
errors. -/
theorem claim_C10_leading_pipe_rejected :
    (∀ p : Parser, p.curToken.type = .EQUALS → p.peekToken.type = .PIPE →
      isErr (p.parseUnionMemberTypes) = true)
    ∧ (∀ p : Parser, p.curToken.type = .PIPE →
      isErr (p.parseDirectiveLocations) = true)
    ∧ isErr (parseDocumentStr inputC10a) = true
    ∧ isErr (parseDocumentStr inputC10b) = true :=
  ⟨fun p h1 h2 => parseUnionMemberTypes_leading_pipe p h1 h2,
   fun p h => parseDirectiveLocations_leading_pipe p h, rfl, rfl⟩

/-- Witness for C10: the universal conjuncts applied to concrete token
windows `=` `|` and `|`. -/
theorem claim_C10_witness :
    isErr ((mkParser [equalsTok, pipeTok]).parseUnionMemberTypes) = true
    ∧ isErr ((mkParser [pipeTok]).parseDirectiveLocations) = true :=
  ⟨claim_C10_leading_pipe_rejected.1 (mkParser [equalsTok, pipeTok]) rfl rfl,
   claim_C10_leading_pipe_rejected.2.1 (mkParser [pipeTok]) rfl⟩

end GqlHub
